import Mathlib

/-!
# timemory: storage nodes, operation functors and variadic bundles

A shallow embedding of the parts of the timemory headers that dispatch
operations over components and merge storage nodes:

* `source/timemory/storage/node.hpp`            (namespace `tim.node`)
* `source/timemory/operations/types/stop.hpp`   (namespace `tim.operation`)
* `source/timemory/operations/types/set.hpp`    (namespace `tim.operation`)
* `source/timemory/operations/types/add_secondary.hpp` (namespace `tim.operation`)
* `source/timemory/variadic/functional.hpp`     (namespace `tim.invoke`)
* `source/timemory/variadic/auto_bundle.hpp`, `auto_list.hpp`
* `source/timemory/details/component_hybrid.hpp`
* `examples/ex-cxx-overhead/test_cxx_overhead.cpp` (namespace `ex_cxx_overhead`)

Machine integers (`uint16_t`, `uint64_t`, `int64_t`) are only stored and compared in
the code embedded here, so they are carried as `Nat` and `Int`.  The user supplied
`+=` and `-=` of a component and of its statistics are the `Add` and `Sub`
instances of the type parameters.
-/

namespace tim
namespace node

/-! ## `node::graph` and `node::result` (storage/node.hpp) -/

/-- The tuple `data<Tp>::node_type`:
`(is_dummy, tid, pid, id, depth, obj, stats)`, fields 0 to 6 of `node::graph`. -/
structure graph (Tp St : Type) where
  is_dummy : Bool
  tid : Nat
  pid : Nat
  id : Nat
  depth : Int
  obj : Tp
  stats : St
deriving DecidableEq, Repr

/-- Accessor `graph::hash()`, which returns `this->id()`. -/
def graph.hash {Tp St : Type} (g : graph Tp St) : Nat := g.id

/-- Accessor `graph::data()`, which returns `this->obj()`. -/
def graph.data {Tp St : Type} (g : graph Tp St) : Tp := g.obj

/-- The member `graph::operator+=`:
`obj() += rhs.obj(); stats() += rhs.stats(); return *this;`. -/
def graph.plus_eq {Tp St : Type} [Add Tp] [Add St] (g rhs : graph Tp St) : graph Tp St :=
  { g with obj := g.obj + rhs.obj, stats := g.stats + rhs.stats }

/-- The member `graph::operator-=`:
`obj() -= rhs.obj(); stats() -= rhs.stats(); return *this;`. -/
def graph.minus_eq {Tp St : Type} [Sub Tp] [Sub St] (g rhs : graph Tp St) : graph Tp St :=
  { g with obj := g.obj - rhs.obj, stats := g.stats - rhs.stats }

/-- The tuple `data<Tp>::result_type`:
`(tid, pid, depth, hash, rolling_hash, prefix, hierarchy, data, stats)`,
fields 0 to 8 of `node::result`.  The field `prefix()` is named `prefix_` here. -/
structure result (Tp St : Type) where
  tid : Nat
  pid : Nat
  depth : Int
  hash : Nat
  rolling_hash : Nat
  prefix_ : String
  hierarchy : List Nat
  data : Tp
  stats : St
deriving Repr

/-- The member `result::operator==`:
`depth() == rhs.depth() && hash() == rhs.hash() &&
 rolling_hash() == rhs.rolling_hash() && prefix() == rhs.prefix()`. -/
def result.eq {Tp St : Type} (a rhs : result Tp St) : Bool :=
  decide (a.depth = rhs.depth) && decide (a.hash = rhs.hash) &&
    decide (a.rolling_hash = rhs.rolling_hash) && decide (a.prefix_ = rhs.prefix_)

/-- The member `result::operator!=`: `!(*this == rhs)`. -/
def result.ne {Tp St : Type} (a rhs : result Tp St) : Bool :=
  !(a.eq rhs)

/-- The constructor `graph(_id, _obj, _depth, _tid, _pid, _is_dummy)`:
`base_type(_is_dummy, _tid, _pid, _id, _depth, _obj, stats_type{})`.  The
value-initialised `stats_type{}` is the `default` of the statistics type. -/
def graph.ctor {Tp St : Type} [Inhabited St] (_id : Nat) (_obj : Tp) (_depth : Int)
    (_tid _pid : Nat) (_is_dummy : Bool) : graph Tp St :=
  { is_dummy := _is_dummy, tid := _tid, pid := _pid, id := _id, depth := _depth, obj := _obj, stats := default }

/-- The member `graph::operator==`: `id() == rhs.id() && depth() == rhs.depth()`. -/
def graph.eq {Tp St : Type} (g rhs : graph Tp St) : Bool :=
  decide (g.id = rhs.id) && decide (g.depth = rhs.depth)

/-- The member `graph::operator!=`: `!(*this == rhs)`. -/
def graph.ne {Tp St : Type} (g rhs : graph Tp St) : Bool :=
  !(g.eq rhs)

/-- The constructor
`result(_hash, _data, _prefix, _depth, _rolling, _hierarchy, _stats, _tid, _pid)`:
`base_type(_tid, _pid, _depth, _id, _rolling, _prefix, _hierarchy, _data, _stats)`,
where `_id` is the name the definition gives to the first parameter. -/
def result.ctor {Tp St : Type} (_id : Nat) (_data : Tp) ( _prefix : String) (_depth : Int)
    (_rolling : Nat) (_hierarchy : List Nat) (_stats : St) (_tid _pid : Nat) : result Tp St :=
  { tid := _tid, pid := _pid, depth := _depth, hash := _id, rolling_hash := _rolling, prefix_ := _prefix, hierarchy := _hierarchy, data := _data, stats := _stats }

/-- Accessor `result::id()`, field 3 of the tuple, the same field as `hash()`. -/
def result.id {Tp St : Type} (r : result Tp St) : Nat := r.hash

/-- Accessor `result::obj()`, field 7 of the tuple, the same field as `data()`. -/
def result.obj {Tp St : Type} (r : result Tp St) : Tp := r.data

/-- The member `result::operator+=`:
`data() += rhs.data(); stats() += rhs.stats(); return *this;`. -/
def result.plus_eq {Tp St : Type} [Add Tp] [Add St] (a rhs : result Tp St) : result Tp St :=
  { a with data := a.data + rhs.data, stats := a.stats + rhs.stats }

/-- The member `result::operator-=`:
`data() -= rhs.data(); stats() -= rhs.stats(); return *this;`. -/
def result.minus_eq {Tp St : Type} [Sub Tp] [Sub St] (a rhs : result Tp St) : result Tp St :=
  { a with data := a.data - rhs.data, stats := a.stats - rhs.stats }

/-! ## `node::entry` and `node::tree` (storage/node.hpp) -/

/-- The tuple `std::tuple<Tp, StatT>` of `node::entry`: `data()` is field 0 and
`stats()` is field 1. -/
structure entry (Tp St : Type) where
  data : Tp
  stats : St
deriving DecidableEq, Repr

/-- The member `entry::operator+=`:
`data() += rhs.data(); stats() += rhs.stats(); return *this;`. -/
def entry.plus_eq {Tp St : Type} [Add Tp] [Add St] (e rhs : entry Tp St) : entry Tp St :=
  { data := e.data + rhs.data, stats := e.stats + rhs.stats }

/-- The member `entry::operator-=`:
`data() -= rhs.data(); stats() -= rhs.stats(); return *this;`. -/
def entry.minus_eq {Tp St : Type} [Sub Tp] [Sub St] (e rhs : entry Tp St) : entry Tp St :=
  { data := e.data - rhs.data, stats := e.stats - rhs.stats }

/-- The type `idset_type`, a `std::set<int64_t>`: a finite set of integers, iterated
in ascending order. -/
abbrev idset_type := Finset Int

/-- The range-for loop `for(const auto& itr : src) dst.insert(itr);` over a
`std::set`, which visits the elements of `src` in ascending order. -/
def idset_insert_all (dst src : idset_type) : idset_type :=
  (src.sort (fun x y => x ≤ y)).foldl (fun acc itr => insert itr acc) dst

/-- The tuple `data<Tp>::tree_type`:
`(is_dummy, hash, depth, tid, pid, inclusive, exclusive)`, fields 0 to 6 of
`node::tree`. -/
structure tree (Tp St : Type) where
  is_dummy : Bool
  hash : Nat
  depth : Int
  tid : idset_type
  pid : idset_type
  inclusive : entry Tp St
  exclusive : entry Tp St
deriving DecidableEq

/-- The member `tree::operator+=`:
`inclusive() += rhs.inclusive(); exclusive() += rhs.exclusive();`, then every
element of `rhs.tid()` is inserted into `tid()` and every element of `rhs.pid()`
into `pid()`. -/
def tree.plus_eq {Tp St : Type} [Add Tp] [Add St] (t rhs : tree Tp St) : tree Tp St :=
  { t with
    inclusive := t.inclusive.plus_eq rhs.inclusive
    exclusive := t.exclusive.plus_eq rhs.exclusive
    tid := idset_insert_all t.tid rhs.tid
    pid := idset_insert_all t.pid rhs.pid }

/-- The member `tree::operator-=`:
`inclusive() -= rhs.inclusive(); exclusive() -= rhs.exclusive(); return *this;`. -/
def tree.minus_eq {Tp St : Type} [Sub Tp] [Sub St] (t rhs : tree Tp St) : tree Tp St :=
  { t with
    inclusive := t.inclusive.minus_eq rhs.inclusive
    exclusive := t.exclusive.minus_eq rhs.exclusive }

/-- The constructor `tree(const graph<Tp>& rhs)`:
`base_type(rhs.is_dummy(), rhs.hash(), rhs.depth(), idset_type{ rhs.tid() },
idset_type{ rhs.pid() }, entry_type{ rhs.data(), rhs.stats() },
entry_type{ rhs.data(), rhs.stats() })`.  The `uint16_t` ids are converted to
`int64_t`, which keeps their value. -/
def tree.ctor_graph {Tp St : Type} (rhs : graph Tp St) : tree Tp St :=
  { is_dummy := rhs.is_dummy
    hash := rhs.hash
    depth := rhs.depth
    tid := {(rhs.tid : Int)}
    pid := {(rhs.pid : Int)}
    inclusive := { data := rhs.data, stats := rhs.stats }
    exclusive := { data := rhs.data, stats := rhs.stats } }

/-- The member `tree::operator=(const graph<Tp>& rhs)`, which assigns the seven
fields one after the other:
`is_dummy() = rhs.is_dummy(); hash() = rhs.hash(); depth() = rhs.depth();
tid() = { rhs.tid() }; pid() = { rhs.pid() };
inclusive() = entry_type{ rhs.data(), rhs.stats() };
exclusive() = entry_type{ rhs.data(), rhs.stats() }; return *this;`. -/
def tree.assign_graph {Tp St : Type} (t : tree Tp St) (rhs : graph Tp St) : tree Tp St :=
  let t1 := { t with is_dummy := rhs.is_dummy }
  let t2 := { t1 with hash := rhs.hash }
  let t3 := { t2 with depth := rhs.depth }
  let t4 := { t3 with tid := {(rhs.tid : Int)} }
  let t5 := { t4 with pid := {(rhs.pid : Int)} }
  let t6 := { t5 with inclusive := { data := rhs.data, stats := rhs.stats } }
  { t6 with exclusive := { data := rhs.data, stats := rhs.stats } }

end node
end tim

namespace tim

/-! ## Components as the operation functors see them -/

/-- One call made on a component object while an operation functor runs, in the
order the calls are made.  `set_stopped` is the functor `operation::set_stopped<Tp>`
applied to the object; the other events are member functions of the component. -/
inductive Event (α : Type) where
  | set_stopped : Event α
  | stop_args (args : α) : Event α
  | stop_noargs : Event α
  | set_prefix_hash (nhash : Nat) : Event α
  | set_prefix_view (s : String) : Event α
  | set_prefix_c_str (s : String) : Event α
  | set_prefix_data (s : String) : Event α
deriving DecidableEq, Repr

/-- An event that is a call of the component's own `stop` member. -/
def Event.is_stop_member {α : Type} : Event α → Bool
  | .stop_args _ => true
  | .stop_noargs => true
  | _ => false

/-- An event that is a call of a member function of the component. -/
def Event.is_member {α : Type} : Event α → Bool
  | .set_stopped => false
  | _ => true

/-- A component type `Tp` with objects of type `σ`, as far as the functors of
`operations/types/stop.hpp` and `set.hpp` can see it, for calls with an argument
pack of type `α`.

The traits and the helper functors `is_running` and `set_stopped` are declared
outside the embedded headers and are parameters.  Each optional field is a member
function call expression: `some f` when the expression is well-formed for `Tp` and
then behaves as `f`, `none` when it is ill-formed (substitution failure). -/
structure Component (σ α : Type) where
  /-- The value of `trait::runtime_enabled<Tp>::get()`. -/
  runtime_enabled : Bool := true
  /-- The value of `trait::stop_priority<Tp>::value`. -/
  stop_priority : Int := 0
  /-- The functor `operation::is_running<Tp, true>{}(obj)`. -/
  is_running : σ → Bool
  /-- The functor `operation::set_stopped<Tp>{}(obj)`. -/
  set_stopped : σ → σ
  /-- The expression `obj.stop(std::forward<Args>(args)...)`. -/
  stop_args : Option (σ → α → σ) := none
  /-- The expression `obj.stop()`. -/
  stop_noargs : Option (σ → σ) := none
  /-- The expression `obj.set_prefix(_nhash)` with a `uint64_t`. -/
  set_prefix_hash : Option (σ → Nat → σ) := none
  /-- The expression `obj.set_prefix(_prefix)` with a `string_view_t`. -/
  set_prefix_view : Option (σ → String → σ) := none
  /-- The expression `obj.set_prefix(_prefix.c_str())`. -/
  set_prefix_c_str : Option (σ → String → σ) := none
  /-- The expression `obj.set_prefix(_prefix.data())`. -/
  set_prefix_data : Option (σ → String → σ) := none

/-- The outcome of running a functor on one object: its new state and the calls
made on it. -/
abbrev Outcome (σ α : Type) := σ × List (Event α)

namespace operation

/-! ## Overload resolution over the `int`/`long` dummy parameters

The SFINAE overload sets of the operation functors are all called with the literal
`0` in their dummy positions and differ in the types `int` or `long` of these
parameters. -/

/-- The declared type of a dummy parameter. -/
inductive dummy_param where
  | int
  | long
deriving DecidableEq, Repr

/-- Rank of the implicit conversion of the argument `0`, of type `int`, to the
parameter: 0 for the exact match `int`, 1 for the integral conversion to `long`. -/
def dummy_param.rank : dummy_param → Nat
  | .int => 0
  | .long => 1

/-- One function template of an overload set: its dummy parameter types and its
body, `none` when its trailing return type is ill-formed for the component, which
removes it from the candidate set. -/
structure overload (R : Type) where
  dummies : List dummy_param
  body : Option R

/-- Candidate with parameters `a` is a better match than the one with parameters
`b`: its conversions are no worse in every position and better in at least one. -/
def better (a b : List dummy_param) : Bool :=
  (List.zipWith (fun x y => decide (x.rank ≤ y.rank)) a b).all id &&
    (List.zipWith (fun x y => decide (x.rank < y.rank)) a b).any id

/-- Candidate number `i` is viable and better than every other viable candidate. -/
def is_best {R : Type} (cands : List (overload R)) (i : Nat) : Bool :=
  match cands[i]? with
  | none => false
  | some c =>
    c.body.isSome &&
      (List.range cands.length).all (fun j =>
        j == i ||
          match cands[j]? with
          | none => true
          | some d => !d.body.isSome || better c.dummies d.dummies)

/-- Overload resolution: the body of the unique best viable candidate; `none` when
no candidate is viable or the call is ambiguous (the call is then ill-formed). -/
def resolve {R : Type} (cands : List (overload R)) : Option R :=
  match (List.range cands.length).filter (is_best cands) with
  | [i] => (cands[i]?).bind (fun c => c.body)
  | _ => none

/-! ## `operation::stop` (operations/types/stop.hpp) -/

/-- The three overloads of `stop<Tp>::do_sfinae(obj, 0, 0, args...)`:
resolution #1 `(int, int)` calls `set_stopped` and then `obj.stop(args...)`,
resolution #2 `(int, long)` calls `set_stopped` and then `obj.stop()`,
resolution #3 `(long, long)` has no condition and an empty body. -/
def stop.overloads {σ α : Type} (c : Component σ α) (obj : σ) (args : α) :
    List (overload (Outcome σ α)) :=
  [ { dummies := [.int, .int]
      body := c.stop_args.map (fun f =>
        (f (c.set_stopped obj) args, [Event.set_stopped, Event.stop_args args])) },
    { dummies := [.int, .long]
      body := c.stop_noargs.map (fun f =>
        (f (c.set_stopped obj), [Event.set_stopped, Event.stop_noargs])) },
    { dummies := [.long, .long]
      body := some (obj, []) } ]

/-- The call `do_sfinae(obj, 0, 0, args...)` inside `stop<Tp>`.  Resolution #3 is
always viable, so the resolution always selects a body and the default of `getD` is
never taken. -/
def stop.do_sfinae {σ α : Type} (c : Component σ α) (obj : σ) (args : α) : Outcome σ α :=
  (resolve (stop.overloads c obj args)).getD (obj, [])

/-- The private member `stop<Tp>::impl(obj, args...)`, which both constructors
`stop(obj)` and `stop(obj, arg, args...)` forward to:
return when the type is runtime-disabled; when the object is running, call
`set_stopped` and then `do_sfinae`. -/
def stop.impl {σ α : Type} (c : Component σ α) (obj : σ) (args : α) : Outcome σ α :=
  if !c.runtime_enabled then (obj, [])
  else if c.is_running obj then
    let r := stop.do_sfinae c (c.set_stopped obj) args
    (r.1, Event.set_stopped :: r.2)
  else (obj, [])

/-- The constructor form `operation::stop<Tp>(obj, args...)`. -/
def stop {σ α : Type} (c : Component σ α) (obj : σ) (args : α) : Outcome σ α :=
  stop.impl c obj args

/-- The call operator `stop<Tp>::operator()(obj, args...)`: `do_sfinae` when the
type is runtime-enabled and the object is running, otherwise nothing is done (a
value-initialised `RetT` is returned). -/
def stop.call {σ α : Type} (c : Component σ α) (obj : σ) (args : α) : Outcome σ α :=
  if c.runtime_enabled && c.is_running obj then stop.do_sfinae c obj args
  else (obj, [])

/-- The constructor `priority_stop<Tp>(obj, args...)`: return when the type is
runtime-disabled; otherwise `sfinae` constructs `stop<Tp>(obj, args...)` when
`trait::stop_priority<Tp>::value < 0` and has an empty body when not. -/
def priority_stop {σ α : Type} (c : Component σ α) (obj : σ) (args : α) : Outcome σ α :=
  if !c.runtime_enabled then (obj, [])
  else if c.stop_priority < 0 then stop c obj args
  else (obj, [])

/-- The constructor `standard_stop<Tp>(obj, args...)`: as `priority_stop`, with the
condition `trait::stop_priority<Tp>::value == 0`. -/
def standard_stop {σ α : Type} (c : Component σ α) (obj : σ) (args : α) : Outcome σ α :=
  if !c.runtime_enabled then (obj, [])
  else if c.stop_priority = 0 then stop c obj args
  else (obj, [])

/-- The constructor `delayed_stop<Tp>(obj, args...)`: as `priority_stop`, with the
condition `trait::stop_priority<Tp>::value > 0`. -/
def delayed_stop {σ α : Type} (c : Component σ α) (obj : σ) (args : α) : Outcome σ α :=
  if !c.runtime_enabled then (obj, [])
  else if c.stop_priority > 0 then stop c obj args
  else (obj, [])

/-! ## `operation::set_prefix` (operations/types/set.hpp) -/

namespace set_prefix

/-- The four overloads of `sfinae_str(obj, 0, 0, 0, _prefix)`:
`(int, int, int)` calls `obj.set_prefix(_prefix)` with the string view,
`(int, int, long)` calls `obj.set_prefix(_prefix.c_str())`,
`(int, long, long)` calls `obj.set_prefix(_prefix.data())`,
`(long, long, long)` has no condition and an empty body. -/
def sfinae_str_overloads {σ α : Type} (c : Component σ α) (obj : σ) ( _prefix : String) :
    List (overload (Outcome σ α)) :=
  [ { dummies := [.int, .int, .int]
      body := c.set_prefix_view.map (fun f =>
        (f obj _prefix, [Event.set_prefix_view _prefix])) },
    { dummies := [.int, .int, .long]
      body := c.set_prefix_c_str.map (fun f =>
        (f obj _prefix, [Event.set_prefix_c_str _prefix])) },
    { dummies := [.int, .long, .long]
      body := c.set_prefix_data.map (fun f =>
        (f obj _prefix, [Event.set_prefix_data _prefix])) },
    { dummies := [.long, .long, .long]
      body := some (obj, []) } ]

/-- The call `sfinae_str(obj, 0, 0, 0, _prefix)`.  The last overload is always
viable, so the default of `getD` is never taken. -/
def sfinae_str {σ α : Type} (c : Component σ α) (obj : σ) ( _prefix : String) :
    Outcome σ α :=
  (resolve (sfinae_str_overloads c obj _prefix)).getD (obj, [])

/-- The two overloads of `sfinae_hash(obj, 0, _nhash)`: `(int)` calls
`obj.set_prefix(_nhash)`, `(long)` has no condition and an empty body. -/
def sfinae_hash_overloads {σ α : Type} (c : Component σ α) (obj : σ) (_nhash : Nat) :
    List (overload (Outcome σ α)) :=
  [ { dummies := [.int]
      body := c.set_prefix_hash.map (fun f =>
        (f obj _nhash, [Event.set_prefix_hash _nhash])) },
    { dummies := [.long]
      body := some (obj, []) } ]

/-- The call `sfinae_hash(obj, 0, _nhash)`.  The last overload is always viable, so
the default of `getD` is never taken. -/
def sfinae_hash {σ α : Type} (c : Component σ α) (obj : σ) (_nhash : Nat) : Outcome σ α :=
  (resolve (sfinae_hash_overloads c obj _nhash)).getD (obj, [])

/-- The constructor `set_prefix<Tp>(obj, _prefix)`: return when the type is
runtime-disabled, otherwise `sfinae_str(obj, 0, 0, 0, _prefix)`. -/
def ctor_str {σ α : Type} (c : Component σ α) (obj : σ) ( _prefix : String) : Outcome σ α :=
  if !c.runtime_enabled then (obj, [])
  else sfinae_str c obj _prefix

/-- The constructor `set_prefix<Tp>(obj, _nhash, _prefix)`: return when the type is
runtime-disabled, otherwise `sfinae_hash(obj, 0, _nhash)` followed by
`sfinae_str(obj, 0, 0, 0, _prefix)`. -/
def ctor_hash_str {σ α : Type} (c : Component σ α) (obj : σ) (_nhash : Nat)
    ( _prefix : String) : Outcome σ α :=
  if !c.runtime_enabled then (obj, [])
  else
    let r1 := sfinae_hash c obj _nhash
    let r2 := sfinae_str c r1.1 _prefix
    (r2.1, r1.2 ++ r2.2)

end set_prefix

/-! ## `operation::add_secondary` (operations/types/add_secondary.hpp) -/

/-- A component type `Tp` with objects of type `σ` and `value_type` `V`, as far as
`operation::add_secondary` on a storage can see it.  The traits are declared outside
the embedded header and are parameters. -/
structure SecondaryComponent (σ V : Type) where
  /-- The value of `trait::runtime_enabled<Tp>::get()`. -/
  runtime_enabled : Bool := true
  /-- The value of `trait::secondary_data<Tp>::value`. -/
  secondary_data : Bool := false
  /-- The expression `_rhs.get_secondary()` on a const object: `some f` when it is
  well-formed, and then `f` gives the pairs of the returned container in its
  iteration order; `none` when it is ill-formed. -/
  get_secondary : Option (σ → List (String × V)) := none

/-- The tuple `secondary_data_t`, `std::tuple<Iterator, const string_t&, value_type>`. -/
abbrev secondary_data_t (I V : Type) := I × String × V

/-- The guarded loop shared by `add_secondary<Tp, true>::operator()` and the first
overload of `add_secondary<Tp, false>::storage_sfinae`:
return when `!trait::runtime_enabled<Tp>::get() || _storage == nullptr ||
!settings::add_secondary()`, otherwise
`for(const auto& _data : _rhs.get_secondary())
     _storage->append(secondary_data_t{ _itr, _data.first, _data.second });`.
The storage pointer is carried as the storage it points to, `none` for `nullptr`;
`append` is the member `Storage::append`, declared outside the embedded header, and
`settings_add_secondary` is the value `settings::add_secondary()` returns. -/
def internal.append_secondary {σ V S I : Type} (c : SecondaryComponent σ V)
    (append : S → secondary_data_t I V → S) (settings_add_secondary : Bool)
    (get_secondary : σ → List (String × V)) (_storage : Option S) (_itr : I) (_rhs : σ) :
    Option S :=
  if !c.runtime_enabled || _storage.isNone || !settings_add_secondary then _storage
  else
    _storage.map (fun storage =>
      (get_secondary _rhs).foldl (fun acc _data => append acc (_itr, _data.1, _data.2)) storage)

/-- The call operator
`internal::add_secondary<Tp, true>::operator()(Storage*, Iterator, const Up&)`.  Its
body names `_rhs.get_secondary()` without a condition: for a type on which that
expression is ill-formed the instantiation does not compile, which is the outer
`none`.  Otherwise the result is the storage after the call. -/
def internal.add_secondary_true.call {σ V S I : Type} (c : SecondaryComponent σ V)
    (append : S → secondary_data_t I V → S) (settings_add_secondary : Bool)
    (_storage : Option S) (_itr : I) (_rhs : σ) : Option (Option S) :=
  match c.get_secondary with
  | none => none
  | some get_secondary =>
    some (internal.append_secondary c append settings_add_secondary get_secondary
      _storage _itr _rhs)

/-- The two overloads of
`internal::add_secondary<Tp, false>::storage_sfinae(_storage, _itr, _rhs, 0)`:
`(int)` requires `_rhs.get_secondary()` and runs the guarded loop, `(long)` has no
condition and an empty body. -/
def internal.add_secondary_false.storage_sfinae_overloads {σ V S I : Type}
    (c : SecondaryComponent σ V) (append : S → secondary_data_t I V → S)
    (settings_add_secondary : Bool) (_storage : Option S) (_itr : I) (_rhs : σ) :
    List (overload (Option S)) :=
  [ { dummies := [.int]
      body := c.get_secondary.map (fun get_secondary =>
        internal.append_secondary c append settings_add_secondary get_secondary
          _storage _itr _rhs) },
    { dummies := [.long]
      body := some _storage } ]

/-- The call `storage_sfinae(_storage, _itr, _rhs, 0)`.  The last overload is always
viable, so the default of `getD` is never taken. -/
def internal.add_secondary_false.storage_sfinae {σ V S I : Type}
    (c : SecondaryComponent σ V) (append : S → secondary_data_t I V → S)
    (settings_add_secondary : Bool) (_storage : Option S) (_itr : I) (_rhs : σ) : Option S :=
  (resolve (internal.add_secondary_false.storage_sfinae_overloads c append
    settings_add_secondary _storage _itr _rhs)).getD _storage

/-- The call operator
`internal::add_secondary<Tp, false>::operator()(Storage*, Iterator, const type&)`:
`return storage_sfinae(_storage, _itr, _rhs, 0);`. -/
def internal.add_secondary_false.call {σ V S I : Type} (c : SecondaryComponent σ V)
    (append : S → secondary_data_t I V → S) (settings_add_secondary : Bool)
    (_storage : Option S) (_itr : I) (_rhs : σ) : Option S :=
  internal.add_secondary_false.storage_sfinae c append settings_add_secondary
    _storage _itr _rhs

/-- The constructor `operation::add_secondary<Tp>(_storage, _itr, _rhs)`: it
constructs the base `internal::add_secondary<Tp, trait::secondary_data<Tp>::value>`
on the same arguments, whose constructor applies the call operator.  The outer
`none` is a program that does not compile. -/
def add_secondary {σ V S I : Type} (c : SecondaryComponent σ V)
    (append : S → secondary_data_t I V → S) (settings_add_secondary : Bool)
    (_storage : Option S) (_itr : I) (_rhs : σ) : Option (Option S) :=
  if c.secondary_data then
    internal.add_secondary_true.call c append settings_add_secondary _storage _itr _rhs
  else
    some (internal.add_secondary_false.call c append settings_add_secondary
      _storage _itr _rhs)

end operation

/-! ## `invoke::stop` (variadic/functional.hpp)

A bundle is the tuple `TupleT<Tp...>`.  Its component types are pairwise distinct
(elements are fetched by type), so a type of the bundle is identified with its
position in the tuple: `index_of<Tp, data_type>::value` is that position and type
lists such as `data_type` are lists of positions. -/

/-- One element of a bundle: the component type and the object of that type. -/
structure Slot (σ α : Type) where
  Tp : Component σ α
  obj : σ

/-- The tuple of component objects `TupleT<Tp...>`. -/
abbrev Bundle (σ α : Type) := List (Slot σ α)

/-- An operation functor template `OpT`, instantiated on a component type and
constructed on an object and an argument pack. -/
abbrev OpT (σ α : Type) := Component σ α → σ → α → Outcome σ α

/-- The bundle while operations are applied to it, and the calls made so far, each
with the position of the component it was made on. -/
structure Run (σ α : Type) where
  data : Bundle σ α
  log : List (Nat × Event α)

namespace invoke

/-- The value `trait::stop_priority<Tp>::value` of the type at position `i`. -/
def stop_priority_at {σ α : Type} (b : Bundle σ α) (i : Nat) : Int :=
  match b[i]? with
  | some s => s.Tp.stop_priority
  | none => 0

/-- Modelled from the spec: the predicate `negative_stop_priority<Tp>` is declared
outside the embedded headers; it is taken to hold when the per-type stop priority
is below zero. -/
def negative_stop_priority {σ α : Type} (b : Bundle σ α) (i : Nat) : Bool :=
  decide (stop_priority_at b i < 0)

/-- Modelled from the spec: the predicate `positive_stop_priority<Tp>` is declared
outside the embedded headers; it is taken to hold when the per-type stop priority
is above zero. -/
def positive_stop_priority {σ α : Type} (b : Bundle σ α) (i : Nat) : Bool :=
  decide (stop_priority_at b i > 0)

/-- Modelled from the spec: `filter_false_t<Pred, Tuple>` is declared outside the
embedded headers; it is taken to drop the types for which the predicate is false
and to keep the others in their order. -/
def filter_false_t (pred : Nat → Bool) (types : List Nat) : List Nat :=
  types.filter pred

/-- Modelled from the spec: `mpl::sort<Trait, Tuple>` is declared outside the
embedded headers; it is taken to reorder the types by ascending trait value. -/
def mpl.sort (key : Nat → Int) (types : List Nat) : List Nat :=
  types.insertionSort (fun x y => key x ≤ key y)

/-- Modelled from the spec: `mpl::get_reference_tuple<Tuple>(obj)` is declared
outside the embedded headers; it is taken to build the tuple of references
`std::get<T>(obj)` for the types `T` of `Tuple`, in their order.  A reference into
the bundle is the position it refers to. -/
def mpl.get_reference_tuple {σ α : Type} (types : List Nat) (_obj : Bundle σ α) : List Nat :=
  types

/-- Modelled from the spec: `operation::generic_operator<T, OpT<T>, Tag>` is declared
outside the embedded headers; its constructor on an element of the bundle is taken
to construct `OpT<T>(obj, args...)` on that element.  The calls the operation makes
are appended to the log under the element's position. -/
def generic_operator {σ α : Type} (op : OpT σ α) (i : Nat) (args : α) (r : Run σ α) :
    Run σ α :=
  match r.data[i]? with
  | none => r
  | some s =>
    let out := op s.Tp s.obj args
    { data := r.data.set i { s with obj := out.1 }
      log := r.log ++ out.2.map (fun e => (i, e)) }

/-- The function `invoke_impl::invoke<OpT, Tag>(_obj, _args...)`: the fold expression
constructs `generic_operator` on each element of the tuple, from the first to the
last.  The tuple is either the bundle itself or a tuple of references into it;
`refs` are the positions of the elements visited. -/
def invoke_impl.invoke {σ α : Type} (op : OpT σ α) (refs : List Nat) (args : α)
    (r : Run σ α) : Run σ α :=
  refs.foldl (fun acc i => generic_operator op i args acc) r

/-- The function `invoke::stop<ApiT>(obj, args...)`:
`priority_stop` over the references to the types with negative stop priority, then
`standard_stop` over the whole bundle, then `delayed_stop` over the references to
the types with positive stop priority. -/
def stop {σ α : Type} (obj : Bundle σ α) (args : α) : Run σ α :=
  let data_type := List.range obj.length
  let priority_types_t := filter_false_t (negative_stop_priority obj) data_type
  let priority_tuple_t := mpl.sort (stop_priority_at obj) priority_types_t
  let delayed_types_t := filter_false_t (positive_stop_priority obj) data_type
  let delayed_tuple_t := mpl.sort (stop_priority_at obj) delayed_types_t
  let _priority_stop := mpl.get_reference_tuple priority_tuple_t obj
  let r1 := invoke_impl.invoke operation.priority_stop _priority_stop args
    { data := obj, log := [] }
  let r2 := invoke_impl.invoke operation.standard_stop data_type args r1
  let _delayed_stop := mpl.get_reference_tuple delayed_tuple_t obj
  invoke_impl.invoke operation.delayed_stop _delayed_stop args r2

/-- A counting timer: the state is `(running, value)`, `set_stopped` clears the
running flag and the only `stop` member is `stop()`, which adds one to the value. -/
def ex_timer (prio : Int) : Component (Bool × Nat) Nat :=
  { stop_priority := prio
    is_running := fun s => s.1
    set_stopped := fun s => (false, s.2)
    stop_noargs := some (fun s => (s.1, s.2 + 1)) }

end invoke

/-! ## `auto_bundle` and `auto_list` (variadic/auto_bundle.hpp, auto_list.hpp) -/

/-- The member functions of `auto_bundle` and `auto_list` whose body is
`if(m_enabled) m_temporary.NAME(std::forward<Args>(args)...);`.  For `invoke` the
operation template `OpT` is passed on with the arguments. -/
inductive Member where
  | push
  | pop
  | measure
  | sample
  | start
  | stop
  | assemble
  | derive
  | mark
  | mark_begin
  | mark_end
  | store
  | audit
  | add_secondary
  | invoke
deriving DecidableEq, Repr

/-- The first argument of the constructors of the auto wrappers: a string key, a
captured location or a hash. -/
inductive Label (Loc : Type) where
  | key (k : String)
  | loc (l : Loc)
  | hash (h : Nat)
deriving DecidableEq, Repr

/-- The wrapped bundle class `component_type` (`component_bundle<Tag, Types...>` for
`auto_bundle`, `component_list<Types...>` for `auto_list`) with objects of type `C`.
The class is declared outside the embedded headers; the members the auto wrappers
use are parameters. -/
structure component_type (C Arg Loc Scope : Type) where
  /-- The constructors `component_type(key | loc | hash, store, scope)`. -/
  construct : Label Loc → Bool → Scope → C
  /-- The member `tmp.clone(store, scope)`. -/
  clone : C → Bool → Scope → C
  /-- The forwarded member functions, called with an argument pack. -/
  call : Member → List Arg → C → C
  /-- The member `operator+=`, as the new value of its left operand. -/
  plus_eq : C → C → C
  /-- The text `operator<<` writes for the bundle. -/
  print : C → String

/-- The compile-time values `quirk_config<quirk::X>::value` of an `auto_bundle`
type; `quirk_config` is declared outside the embedded headers. -/
structure quirks where
  explicit_start : Bool := false
  explicit_stop : Bool := false
  exit_report : Bool := false
deriving DecidableEq, Repr

/-- What a destructor body leaves behind: the last state of `m_temporary`, the
object `m_reference_object` points to (if any) and the lines written to
`std::cout`. -/
structure Destroyed (C : Type) where
  temporary : C
  reference_object : Option C
  cout : List String
deriving DecidableEq, Repr

/-- The report of the destructors:
`ss << m_temporary; if(ss.str().length() > 0) std::cout << ss.str() << std::endl;`,
under `if(m_report_at_exit)`. -/
def report_lines {C Arg Loc Scope : Type} (ops : component_type C Arg Loc Scope)
    (m_report_at_exit : Bool) (tmp : C) : List String :=
  if m_report_at_exit then
    if (ops.print tmp).length > 0 then [ops.print tmp] else []
  else []

/-- The data members of `auto_list<Types...>`, with their default member
initialisers.  `m_reference_object` is a pointer; it is carried as the object it
points to, `none` for `nullptr`. -/
structure auto_list (C : Type) where
  m_enabled : Bool := true
  m_report_at_exit : Bool := false
  m_temporary : C
  m_reference_object : Option C := none
deriving DecidableEq, Repr

namespace auto_list

/-- The three constructors `auto_list(key | loc | hash, scope, report_at_exit, _func)`,
which differ only in the type of the first argument:
`m_enabled(settings::enabled())`, `m_report_at_exit(report_at_exit)`,
`m_temporary(label, m_enabled, _scope)`, `m_reference_object(nullptr)`, and in the
body `if(m_enabled) { _func(*this); m_temporary.start(); }`.
`settings_enabled` is the value `settings::enabled()` returns. -/
def ctor {C Arg Loc Scope : Type} (ops : component_type C Arg Loc Scope)
    (settings_enabled : Bool) (label : Label Loc) (_scope : Scope) (report_at_exit : Bool)
    (_func : auto_list C → auto_list C) : auto_list C :=
  let this : auto_list C :=
    { m_enabled := settings_enabled
      m_report_at_exit := report_at_exit
      m_temporary := ops.construct label settings_enabled _scope
      m_reference_object := none }
  if this.m_enabled then
    let this1 := _func this
    { this1 with m_temporary := ops.call Member.start [] this1.m_temporary }
  else this

/-- The constructor `auto_list(component_type& tmp, scope, report_at_exit)`:
`m_report_at_exit(report_at_exit)`, `m_temporary(tmp.clone(true, _scope))`,
`m_reference_object(&tmp)`, `m_enabled` keeps its default initialiser, and in the
body `if(m_enabled) m_temporary.start();`. -/
def ctor_ref {C Arg Loc Scope : Type} (ops : component_type C Arg Loc Scope)
    (tmp : C) (_scope : Scope) (report_at_exit : Bool) : auto_list C :=
  let this : auto_list C :=
    { m_report_at_exit := report_at_exit
      m_temporary := ops.clone tmp true _scope
      m_reference_object := some tmp }
  if this.m_enabled then
    { this with m_temporary := ops.call Member.start [] this.m_temporary }
  else this

/-- The fifteen forwarding members `push`, `pop`, `measure`, ..., `invoke<OpT>`:
`if(m_enabled) m_temporary.NAME(std::forward<Args>(args)...);`. -/
def member {C Arg Loc Scope : Type} (ops : component_type C Arg Loc Scope)
    (name : Member) (args : List Arg) (this : auto_list C) : auto_list C :=
  if this.m_enabled then { this with m_temporary := ops.call name args this.m_temporary }
  else this

/-- The destructor `~auto_list()`: under `if(m_enabled)`, `m_temporary.stop()`, the
report, and `*m_reference_object += m_temporary` when the pointer is not null. -/
def destructor {C Arg Loc Scope : Type} (ops : component_type C Arg Loc Scope)
    (this : auto_list C) : Destroyed C :=
  if this.m_enabled then
    let tmp := ops.call Member.stop [] this.m_temporary
    let out := report_lines ops this.m_report_at_exit tmp
    match this.m_reference_object with
    | some ref => { temporary := tmp, reference_object := some (ops.plus_eq ref tmp), cout := out }
    | none => { temporary := tmp, reference_object := none, cout := out }
  else
    { temporary := this.m_temporary, reference_object := this.m_reference_object, cout := [] }

end auto_list

/-- The data members of `auto_bundle<Tag, Types...>`, with their default member
initialisers.  `m_reference_object` is a pointer; it is carried as the object it
points to, `none` for `nullptr`. -/
structure auto_bundle (C : Type) where
  m_enabled : Bool := true
  m_report_at_exit : Bool := false
  m_reference_object : Option C := none
  m_temporary : C
deriving DecidableEq, Repr

namespace auto_bundle

/-- The constructor `auto_bundle(component_type& tmp, scope, report_at_exit)`:
`m_report_at_exit(report_at_exit || quirk_config<quirk::exit_report>::value)`,
`m_reference_object(&tmp)`, `m_temporary(component_type(tmp.clone(true, _scope)))`,
`m_enabled` keeps its default initialiser, and in the body
`if(m_enabled) { IF_CONSTEXPR(!explicit_start) { m_temporary.start(); } }`. -/
def ctor_ref {C Arg Loc Scope : Type} (ops : component_type C Arg Loc Scope) (q : quirks)
    (tmp : C) (_scope : Scope) (report_at_exit : Bool) : auto_bundle C :=
  let this : auto_bundle C :=
    { m_report_at_exit := report_at_exit || q.exit_report
      m_reference_object := some tmp
      m_temporary := ops.clone tmp true _scope }
  if this.m_enabled then
    if !q.explicit_start then
      { this with m_temporary := ops.call Member.start [] this.m_temporary }
    else this
  else this

/-- The fifteen forwarding members `push`, `pop`, `measure`, ..., `invoke<OpT>`:
`if(m_enabled) m_temporary.NAME(std::forward<Args>(args)...);`. -/
def member {C Arg Loc Scope : Type} (ops : component_type C Arg Loc Scope)
    (name : Member) (args : List Arg) (this : auto_bundle C) : auto_bundle C :=
  if this.m_enabled then { this with m_temporary := ops.call name args this.m_temporary }
  else this

/-- The destructor `~auto_bundle()`: under
`IF_CONSTEXPR(!quirk_config<quirk::explicit_stop>::value)` and `if(m_enabled)`,
`m_temporary.stop()`, the report, and `*m_reference_object += m_temporary` when the
pointer is not null. -/
def destructor {C Arg Loc Scope : Type} (ops : component_type C Arg Loc Scope) (q : quirks)
    (this : auto_bundle C) : Destroyed C :=
  if !q.explicit_stop then
    if this.m_enabled then
      let tmp := ops.call Member.stop [] this.m_temporary
      let out := report_lines ops this.m_report_at_exit tmp
      match this.m_reference_object with
      | some ref =>
        { temporary := tmp, reference_object := some (ops.plus_eq ref tmp), cout := out }
      | none => { temporary := tmp, reference_object := none, cout := out }
    else
      { temporary := this.m_temporary, reference_object := this.m_reference_object, cout := [] }
  else
    { temporary := this.m_temporary, reference_object := this.m_reference_object, cout := [] }

end auto_bundle

/-- The member `auto_bundle::count()`:
`return (m_enabled) ? m_temporary.count() : 0;`.  `count` is the member `count()`
of the wrapped bundle, declared outside the embedded headers. -/
def auto_bundle.count {C : Type} (count : C → Nat) (this : auto_bundle C) : Nat :=
  if this.m_enabled then count this.m_temporary else 0

/-! ## `get` and `get_labeled` of `component_hybrid` (details/component_hybrid.hpp) -/

/-- Modelled from the spec: the class `component_hybrid<_Tuple, _List>` is declared
outside the embedded headers; it is taken to hold a tuple half and a list half,
which `get_lhs()` and `get_rhs()` return. -/
structure component_hybrid (CompTuple CompList : Type) where
  m_tuple : CompTuple
  m_list : CompList

/-- Accessor `component_hybrid::get_lhs()`, the tuple half. -/
def component_hybrid.get_lhs {T L : Type} (h : component_hybrid T L) : T := h.m_tuple

/-- Accessor `component_hybrid::get_rhs()`, the list half. -/
def component_hybrid.get_rhs {T L : Type} (h : component_hybrid T L) : L := h.m_list

/-- The function `std::tuple_cat` on two tuples, carried as the lists of their
elements. -/
def std.tuple_cat {V : Type} (a b : List V) : List V := a ++ b

/-- The function `get(const component_hybrid<_Tuple, _List>&)`:
`return std::tuple_cat(get(_obj.get_lhs()), get(_obj.get_rhs()));`.  The overloads
of `get` for the two halves are declared outside the embedded headers and are the
parameters `get_tuple` and `get_list`. -/
def get {T L V : Type} (get_tuple : T → List V) (get_list : L → List V)
    (_obj : component_hybrid T L) : List V :=
  std.tuple_cat (get_tuple _obj.get_lhs) (get_list _obj.get_rhs)

/-- The function `get_labeled(const component_hybrid<_Tuple, _List>&)`:
`return std::tuple_cat(get_labeled(_obj.get_lhs()), get_labeled(_obj.get_rhs()));`.
The overloads of `get_labeled` for the two halves are parameters; an entry is a
label with a value. -/
def get_labeled {T L V : Type} (get_labeled_tuple : T → List (String × V))
    (get_labeled_list : L → List (String × V)) (_obj : component_hybrid T L) :
    List (String × V) :=
  std.tuple_cat (get_labeled_tuple _obj.get_lhs) (get_labeled_list _obj.get_rhs)

/-- A component with secondary data: its state is the list of named values that
`get_secondary()` returns. -/
def ex_secondary : operation.SecondaryComponent (List (String × Int)) Int :=
  { get_secondary := some (fun s => s) }

/-- A component whose state is the list of labels it was given, newest first; it
has `set_prefix(uint64_t)` and `set_prefix(const char*)`, so the `c_str()` and
`data()` forms are well-formed and the string-view form is not. -/
def ex_labelled : Component (List String) Unit :=
  { is_running := fun _ => false
    set_stopped := fun s => s
    set_prefix_hash := some (fun s n => ("hash:" ++ toString n) :: s)
    set_prefix_c_str := some (fun s p => ("c_str:" ++ p) :: s)
    set_prefix_data := some (fun s p => ("data:" ++ p) :: s) }

/-- A wrapped bundle that records the member calls made on it, in order: a new
bundle has no calls, `clone` copies the record, `+=` appends the record of the right
operand and nothing is printed. -/
def ex_component_type : component_type (List Member) Nat Unit Unit :=
  { construct := fun _ _ _ => []
    clone := fun c _ _ => c
    call := fun name _ c => c ++ [name]
    plus_eq := fun a b => a ++ b
    print := fun _ => "" }

end tim

namespace tim
namespace cereal

/-! ## `cereal::save` and `cereal::load` of `node::result` (storage/node.hpp) -/

/-- A value handed to an archive, by the type of the field it comes from. -/
inductive archive_value (Tp St : Type) where
  | uint64 (v : Nat)
  | int64 (v : Int)
  | string (v : String)
  | entry (v : Tp)
  | stats (v : St)
deriving DecidableEq, Repr

/-- Modelled from the spec: the archive classes of cereal are declared outside the
embedded headers; an archive is taken to hold the name-value pairs given to it, in
the order they were written, and to give each value back as it was written. -/
abbrev archive (Tp St : Type) := List (String × archive_value Tp St)

/-- Modelled from the spec: `ar(cereal::make_nvp(name, field))` on an input archive
is taken to read the next pair, which must carry that name; `none` when there is no
such pair. -/
def archive.read {Tp St : Type} (name : String) :
    archive Tp St → Option (archive_value Tp St × archive Tp St)
  | [] => none
  | (n, v) :: rest => if n = name then some (v, rest) else none

/-- The function `save(Archive& ar, const node::result<Tp>& r)`:
`ar(make_nvp("hash", r.hash()), make_nvp("prefix", r.prefix()),
make_nvp("depth", r.depth()), make_nvp("entry", r.data()),
make_nvp("stats", r.stats()), make_nvp("rolling_hash", r.rolling_hash()));`.
The result is what is written to the archive. -/
def save {Tp St : Type} (r : node.result Tp St) : archive Tp St :=
  [("hash", .uint64 r.hash), ("prefix", .string r.prefix_), ("depth", .int64 r.depth),
   ("entry", .entry r.data), ("stats", .stats r.stats),
   ("rolling_hash", .uint64 r.rolling_hash)]

/-- The function `load(Archive& ar, node::result<Tp>& r)`, which reads the same six
name-value pairs into `r.hash()`, `r.prefix()`, `r.depth()`, `r.data()`,
`r.stats()` and `r.rolling_hash()`; `none` when the archive does not hold a value
of the field's type under the name. -/
def load {Tp St : Type} (ar : archive Tp St) (r : node.result Tp St) :
    Option (node.result Tp St) :=
  match archive.read "hash" ar with
  | some (.uint64 hash, ar1) =>
    match archive.read "prefix" ar1 with
    | some (.string pfx, ar2) =>
      match archive.read "depth" ar2 with
      | some (.int64 depth, ar3) =>
        match archive.read "entry" ar3 with
        | some (.entry data, ar4) =>
          match archive.read "stats" ar4 with
          | some (.stats stats, ar5) =>
            match archive.read "rolling_hash" ar5 with
            | some (.uint64 rolling_hash, _) =>
              some { r with hash := hash, prefix_ := pfx, depth := depth, data := data, stats := stats, rolling_hash := rolling_hash }
            | _ => none
          | _ => none
        | _ => none
      | _ => none
    | _ => none
  | _ => none

end cereal
end tim

/-! ## The example program (examples/ex-cxx-overhead/test_cxx_overhead.cpp)

The `int64_t` values are unbounded integers here: signed overflow, which the
additions of `fibonacci` reach from `n = 93` on, has no defined behaviour in the
source.  The `int` subtraction of `main` is carried out on 32 bits and wraps around. -/

namespace ex_cxx_overhead

/-- The global state the functions of the example change: the counter
`static int64_t nlaps` and the number of scoped `auto_tuple_t` timers created. -/
structure Globals where
  nlaps : Int
  auto_tuples : Nat
deriving DecidableEq, Repr

/-- The function `fibonacci(int64_t n)`:
`return (n < 2) ? n : (fibonacci(n - 2) + fibonacci(n - 1));`. -/
def fibonacci (n : Int) : Int :=
  if n < 2 then n else fibonacci (n - 2) + fibonacci (n - 1)
termination_by n.toNat
decreasing_by
  all_goals simp_wf
  all_goals omega

/-- The function `fibonacci(int64_t n, int64_t cutoff)`: when `n > cutoff`, `++nlaps`
and a scoped timer `TIMEMORY_AUTO_TUPLE(auto_tuple_t, ...)`, then in both branches
`return (n < 2) ? n : (fibonacci(n - 2, cutoff) + fibonacci(n - 1, cutoff));`.
The macro is declared outside the embedded sources; only the creation of its timer
is counted.  The left operand of `+` is evaluated first. -/
def fibonacci_cutoff (n cutoff : Int) (g : Globals) : Int × Globals :=
  if n > cutoff then
    let g1 : Globals := { nlaps := g.nlaps + 1, auto_tuples := g.auto_tuples + 1 }
    if n < 2 then (n, g1)
    else
      let a := fibonacci_cutoff (n - 2) cutoff g1
      let b := fibonacci_cutoff (n - 1) cutoff a.2
      (a.1 + b.1, b.2)
  else
    if n < 2 then (n, g)
    else
      let a := fibonacci_cutoff (n - 2) cutoff g
      let b := fibonacci_cutoff (n - 1) cutoff a.2
      (a.1 + b.1, b.2)
termination_by n.toNat
decreasing_by
  all_goals simp_wf
  all_goals omega

/-- The first arguments of the calls in the recursion tree of `fibonacci(n, cutoff)`,
the call itself first: a call with `n < 2` makes no further call, every other call
makes the calls on `n - 2` and on `n - 1`. -/
def recursion_tree (n : Int) : List Int :=
  if n < 2 then [n] else n :: (recursion_tree (n - 2) ++ recursion_tree (n - 1))
termination_by n.toNat
decreasing_by
  all_goals simp_wf
  all_goals omega

/-- The function `run(n, with_timing, cutoff)`, as far as the answer and the globals
go: `auto result = (with_timing) ? fibonacci(n, cutoff) : fibonacci(n, n);`.  The
timer it starts, stops and returns and the line it prints are left out. -/
def run (n : Int) (with_timing : Bool) (cutoff : Int) (g : Globals) : Int × Globals :=
  if with_timing then fibonacci_cutoff n cutoff g else fibonacci_cutoff n n g

/-- The value an `int` holds for a result whose mathematical value is `x`: the
representative of `x` modulo `2^32` in the range from `INT_MIN = -2^31` to
`INT_MAX = 2^31 - 1` (two's complement wrap-around). -/
def int_wrap (x : Int) : Int :=
  (x + 2147483648) % 4294967296 - 2147483648

/-- The value of `nlaps` in `timer_list.back() / nlaps` of `main`:
`int nfib` is 43 or `atoi(argv[1])`, `int cutoff` is `nfib - 25` or `atoi(argv[2])`;
then `run(nfib, false, nfib)`, `nlaps = 0`, `run(nfib, true, cutoff)`.  The arguments
are given as the `int` values `atoi` returns, `none` when absent; the subtraction
`nfib - 25` is an `int` subtraction and wraps around below `INT_MIN + 25`. -/
def main_nlaps (argv1 argv2 : Option Int) (g : Globals) : Int :=
  let nfib : Int := match argv1 with
    | some v => v
    | none => 43
  let cutoff : Int := match argv2 with
    | some v => v
    | none => int_wrap (nfib - 25)
  let g1 := (run nfib false nfib g).2
  let g2 : Globals := { g1 with nlaps := 0 }
  (run nfib true cutoff g2).2.nlaps

/-- The expression `std::get<_N>(a)` on a tuple given by the texts that `operator<<`
writes for its elements; `none` when `_N` is not an index of the tuple, for which
the expression is ill-formed. -/
def std_get (N : Int) (a : List String) : Option String :=
  if 0 ≤ N then a[N.toNat]? else none

/-- The two function templates `_test_print<_N, _Nt>(a)`: the one enabled by
`_N == _Nt` writes `std::get<_N>(a)` and `std::endl`; the one enabled by `_N < _Nt`
writes `std::get<_N>(a)` and `", "` and calls `_test_print<_N + 1, _Nt>(a)`; for
`_N > _Nt` no template is enabled.  `cout` holds the pieces written so far, the
result is `none` when the call is ill-formed. -/
def _test_print (N Nt : Int) (a : List String) (cout : List String) : Option (List String) :=
  if N = Nt then
    match std_get N a with
    | some e => some (cout ++ [e, "\n"])
    | none => none
  else if N < Nt then
    match std_get N a with
    | some e => _test_print (N + 1) Nt a (cout ++ [e, ", "])
    | none => none
  else none
termination_by (Nt - N).toNat
decreasing_by
  all_goals simp_wf
  all_goals omega

/-- The function template `test_print(a, b)`:
`_test_print<0, Ts - 1, T...>(a); _test_print<0, Us - 1, U...>(b);` with
`Ts = sizeof...(T)` and `Us = sizeof...(U)`. -/
def test_print (a b : List String) (cout : List String) : Option (List String) :=
  let Ts : Int := a.length
  let Us : Int := b.length
  match _test_print 0 (Ts - 1) a cout with
  | some cout1 => _test_print 0 (Us - 1) b cout1
  | none => none

/-- The line of a tuple in the words of the specification: its elements in index
order, each but the last followed by `", "` and the last followed by a newline. -/
def line_of : List String → List String
  | [] => []
  | [e] => [e, "\n"]
  | e :: f :: rest => e :: ", " :: line_of (f :: rest)

end ex_cxx_overhead

/-! # Theorems -/

namespace tim
namespace node

/-- C4. Two result nodes compare equal exactly when depth, hash, rolling hash and
prefix agree; replacing tid, pid, hierarchy, data and stats on either side by
arbitrary values leaves the comparison unchanged, and `!=` is the negation of `==`. -/
theorem result_eq_iff_key {Tp St : Type} (a b : result Tp St) :
    (a.eq b = true ↔
      (a.depth = b.depth ∧ a.hash = b.hash ∧ a.rolling_hash = b.rolling_hash ∧
        a.prefix_ = b.prefix_)) ∧
    (∀ (t1 p1 t2 p2 : Nat) (h1 h2 : List Nat) (d1 d2 : Tp) (s1 s2 : St),
      result.eq { a with tid := t1, pid := p1, hierarchy := h1, data := d1, stats := s1 }
          { b with tid := t2, pid := p2, hierarchy := h2, data := d2, stats := s2 }
        = a.eq b) ∧
    a.ne b = !(a.eq b) := by
  refine ⟨?_, ?_, rfl⟩
  · simp [result.eq, and_assoc]
  · intros
    rfl

/-- C5. After `g += r` the component value is the old value plus that of `r`, the
statistics are the old statistics plus those of `r`, and is_dummy, tid, pid, id
(hash) and depth are those of the old `g`; no condition relates the hash or depth of
`g` and `r`, and `r`, passed by const reference, is only read. -/
theorem graph_plus_eq_fields {Tp St : Type} [Add Tp] [Add St] (g r : graph Tp St) :
    (g.plus_eq r).obj = g.obj + r.obj ∧
    (g.plus_eq r).data = g.data + r.data ∧
    (g.plus_eq r).stats = g.stats + r.stats ∧
    (g.plus_eq r).is_dummy = g.is_dummy ∧
    (g.plus_eq r).tid = g.tid ∧
    (g.plus_eq r).pid = g.pid ∧
    (g.plus_eq r).id = g.id ∧
    (g.plus_eq r).hash = g.hash ∧
    (g.plus_eq r).depth = g.depth :=
  ⟨rfl, rfl, rfl, rfl, rfl, rfl, rfl, rfl, rfl⟩

/-- C6. When `-=` undoes `+=` on the component type and on the statistics type,
`(g += r) -= r` is `g` again, in all seven fields. -/
theorem graph_plus_minus_cancel {Tp St : Type} [Add Tp] [Sub Tp] [Add St] [Sub St]
    (hT : ∀ x y : Tp, x + y - y = x) (hS : ∀ x y : St, x + y - y = x)
    (g r : graph Tp St) :
    (g.plus_eq r).minus_eq r = g := by
  cases g
  simp [graph.plus_eq, graph.minus_eq, hT, hS]

/-- Witness of C6 on integer valued nodes with different hash and depth. -/
theorem graph_plus_minus_cancel_witness :
    (∀ x y : Int, x + y - y = x) ∧
    (graph.plus_eq (⟨false, 1, 2, 77, 3, 10, 4⟩ : graph Int Int)
        ⟨true, 5, 6, 78, 0, -7, 9⟩).minus_eq ⟨true, 5, 6, 78, 0, -7, 9⟩
      = ⟨false, 1, 2, 77, 3, 10, 4⟩ :=
  ⟨fun x y => Int.add_sub_cancel x y,
   graph_plus_minus_cancel (fun x y => Int.add_sub_cancel x y)
     (fun x y => Int.add_sub_cancel x y) _ _⟩

end node
end tim

namespace tim
namespace operation

theorem stop.do_sfinae_eq {σ α : Type} (c : Component σ α) (obj : σ) (args : α) :
    stop.do_sfinae c obj args =
      match c.stop_args, c.stop_noargs with
      | some f, _ => (f (c.set_stopped obj) args, [Event.set_stopped, Event.stop_args args])
      | none, some g => (g (c.set_stopped obj), [Event.set_stopped, Event.stop_noargs])
      | none, none => (obj, []) := by
  cases h1 : c.stop_args <;> cases h2 : c.stop_noargs <;>
    simp [stop.do_sfinae, stop.overloads, h1, h2] <;> rfl

end operation
end tim

namespace tim
namespace invoke

end invoke

namespace operation

/-- C3. On a runtime-enabled running component, both forms of `operation::stop`
call `stop(args...)` with the arguments when that member exists; otherwise they
call the zero-argument `stop()` when it exists, and the arguments are dropped;
otherwise no member function is called and the selected `do_sfinae` overload leaves
the object as it is.  The outcomes give the state and the full call sequence. -/
theorem stop_dispatch_most_specific {σ α : Type} (c : Component σ α) (obj : σ) (args : α)
    (hen : c.runtime_enabled = true) (hrun : c.is_running obj = true) :
    (∀ f, c.stop_args = some f →
      (stop c obj args).2.filter Event.is_member = [Event.stop_args args] ∧
      (stop.call c obj args).2.filter Event.is_member = [Event.stop_args args] ∧
      stop c obj args = (f (c.set_stopped (c.set_stopped obj)) args,
        [Event.set_stopped, Event.set_stopped, Event.stop_args args]) ∧
      stop.call c obj args = (f (c.set_stopped obj) args,
        [Event.set_stopped, Event.stop_args args])) ∧
    (c.stop_args = none → ∀ g, c.stop_noargs = some g →
      (stop c obj args).2.filter Event.is_member = [Event.stop_noargs] ∧
      (stop.call c obj args).2.filter Event.is_member = [Event.stop_noargs] ∧
      stop c obj args = (g (c.set_stopped (c.set_stopped obj)),
        [Event.set_stopped, Event.set_stopped, Event.stop_noargs]) ∧
      stop.call c obj args = (g (c.set_stopped obj),
        [Event.set_stopped, Event.stop_noargs])) ∧
    (c.stop_args = none → c.stop_noargs = none →
      (stop c obj args).2.filter Event.is_member = [] ∧
      (stop.call c obj args).2.filter Event.is_member = [] ∧
      (∀ o, stop.do_sfinae c o args = (o, [])) ∧
      stop c obj args = (c.set_stopped obj, [Event.set_stopped]) ∧
      stop.call c obj args = (obj, [])) := by
  refine ⟨?_, ?_, ?_⟩
  · intro f hf
    simp [stop, stop.impl, stop.call, hen, hrun, stop.do_sfinae_eq, hf, Event.is_member]
  · intro hn g hg
    simp [stop, stop.impl, stop.call, hen, hrun, stop.do_sfinae_eq, hn, hg, Event.is_member]
  · intro hn hn2
    simp [stop, stop.impl, stop.call, hen, hrun, stop.do_sfinae_eq, hn, hn2, Event.is_member]

/-- Witness of C3 on a timer that exposes only `stop()`, called with one argument. -/
theorem stop_dispatch_most_specific_witness :
    (invoke.ex_timer 0).runtime_enabled = true ∧
    (invoke.ex_timer 0).is_running (true, 4) = true ∧
    stop (invoke.ex_timer 0) (true, 4) 9
      = ((false, 5), [Event.set_stopped, Event.set_stopped, Event.stop_noargs]) :=
  ⟨rfl, rfl,
   ((stop_dispatch_most_specific (invoke.ex_timer 0) (true, 4) 9 rfl rfl).2.1 rfl
      _ rfl).2.2.1⟩

end operation
end tim

namespace tim
namespace operation
namespace set_prefix

theorem sfinae_str_eq {σ α : Type} (c : Component σ α) (obj : σ) (p : String) :
    sfinae_str c obj p =
      match c.set_prefix_view, c.set_prefix_c_str, c.set_prefix_data with
      | some f, _, _ => (f obj p, [Event.set_prefix_view p])
      | none, some f, _ => (f obj p, [Event.set_prefix_c_str p])
      | none, none, some f => (f obj p, [Event.set_prefix_data p])
      | none, none, none => (obj, []) := by
  cases h1 : c.set_prefix_view <;> cases h2 : c.set_prefix_c_str <;>
    cases h3 : c.set_prefix_data <;>
    simp [sfinae_str, sfinae_str_overloads, h1, h2, h3] <;> rfl

theorem sfinae_hash_eq {σ α : Type} (c : Component σ α) (obj : σ) (n : Nat) :
    sfinae_hash c obj n =
      match c.set_prefix_hash with
      | some f => (f obj n, [Event.set_prefix_hash n])
      | none => (obj, []) := by
  cases h1 : c.set_prefix_hash <;>
    simp [sfinae_hash, sfinae_hash_overloads, h1] <;> rfl

/-- C10. `set_prefix(obj, hash, prefix)` on a runtime-enabled component first runs
the hash step, which calls `set_prefix(uint64_t)` when the component has it and
nothing otherwise, and then on the resulting object the string step, which calls
the string-view overload when it exists, otherwise the `c_str()` form when it
exists, otherwise the `data()` form when it exists, otherwise nothing; with none of
the four members the object is unchanged and no call is made, and a runtime-disabled
component is unchanged and receives no call. -/
theorem hash_then_string_dispatch {σ α : Type} (c : Component σ α) (obj : σ) (nhash : Nat)
    (p : String) :
    (c.runtime_enabled = false → ctor_hash_str c obj nhash p = (obj, [])) ∧
    (c.runtime_enabled = true →
      ctor_hash_str c obj nhash p
        = ((sfinae_str c (sfinae_hash c obj nhash).1 p).1,
            (sfinae_hash c obj nhash).2 ++ (sfinae_str c (sfinae_hash c obj nhash).1 p).2) ∧
      (∀ f, c.set_prefix_hash = some f →
        sfinae_hash c obj nhash = (f obj nhash, [Event.set_prefix_hash nhash])) ∧
      (c.set_prefix_hash = none → sfinae_hash c obj nhash = (obj, [])) ∧
      (∀ o f, c.set_prefix_view = some f →
        sfinae_str c o p = (f o p, [Event.set_prefix_view p])) ∧
      (∀ o f, c.set_prefix_view = none → c.set_prefix_c_str = some f →
        sfinae_str c o p = (f o p, [Event.set_prefix_c_str p])) ∧
      (∀ o f, c.set_prefix_view = none → c.set_prefix_c_str = none →
        c.set_prefix_data = some f →
        sfinae_str c o p = (f o p, [Event.set_prefix_data p])) ∧
      (∀ o, c.set_prefix_view = none → c.set_prefix_c_str = none →
        c.set_prefix_data = none → sfinae_str c o p = (o, [])) ∧
      (c.set_prefix_hash = none → c.set_prefix_view = none → c.set_prefix_c_str = none →
        c.set_prefix_data = none → ctor_hash_str c obj nhash p = (obj, []))) := by
  refine ⟨fun hd => by simp [ctor_hash_str, hd], fun he => ⟨by simp [ctor_hash_str, he],
    ?_, ?_, ?_, ?_, ?_, ?_, ?_⟩⟩
  · intro f hf; simp [sfinae_hash_eq, hf]
  · intro hf; simp [sfinae_hash_eq, hf]
  · intro o f h1; simp [sfinae_str_eq, h1]
  · intro o f h1 h2; simp [sfinae_str_eq, h1, h2]
  · intro o f h1 h2 h3; simp [sfinae_str_eq, h1, h2, h3]
  · intro o h1 h2 h3; simp [sfinae_str_eq, h1, h2, h3]
  · intro h0 h1 h2 h3
    simp [ctor_hash_str, he, sfinae_hash_eq, sfinae_str_eq, h0, h1, h2, h3]

/-- Witness of C10 on `ex_labelled`, which has the hash member, the `c_str()` form
and the `data()` form but no string-view overload. -/
theorem hash_then_string_dispatch_witness :
    ex_labelled.runtime_enabled = true ∧
    ctor_hash_str ex_labelled [] 42 "main"
      = (["c_str:main", "hash:42"],
          [Event.set_prefix_hash 42, Event.set_prefix_c_str "main"]) :=
  ⟨rfl, ((hash_then_string_dispatch ex_labelled [] 42 "main").2 rfl).1.trans (by decide)⟩

end set_prefix
end operation

/-- C7, as stated, fails: an `auto_bundle` whose type carries the `explicit_stop`
quirk, built on a reference object and destroyed, holds a reference object, yet its
temporary is not stopped and the reference object is not the old value plus the
stopped temporary; it is left as it was. -/
theorem explicit_stop_bundle_skips_accumulate :
    (auto_bundle.ctor_ref ex_component_type { explicit_stop := true } [Member.mark] ()
        false).m_reference_object = some [Member.mark] ∧
    (auto_bundle.destructor ex_component_type { explicit_stop := true }
        (auto_bundle.ctor_ref ex_component_type { explicit_stop := true } [Member.mark] ()
          false)).reference_object = some [Member.mark] ∧
    (auto_bundle.destructor ex_component_type { explicit_stop := true }
        (auto_bundle.ctor_ref ex_component_type { explicit_stop := true } [Member.mark] ()
          false)).reference_object
      ≠ some (ex_component_type.plus_eq [Member.mark]
          (ex_component_type.call Member.stop []
            (auto_bundle.ctor_ref ex_component_type { explicit_stop := true } [Member.mark] ()
              false).m_temporary)) ∧
    (auto_bundle.destructor ex_component_type { explicit_stop := true }
        (auto_bundle.ctor_ref ex_component_type { explicit_stop := true } [Member.mark] ()
          false)).temporary = [Member.mark, Member.start] := by
  decide

/-- C7, amended. When an `auto_list`, or an `auto_bundle` whose type does not carry
the `explicit_stop` quirk, is destroyed while it holds a reference object and is
enabled, the temporary is stopped and the reference object becomes its old value
plus the stopped temporary; a wrapper built by a reference-object constructor is
always enabled; and when a wrapper holds no reference object, there is still none
after its destruction, so nothing is accumulated. -/
theorem destructor_accumulates_stopped {C Arg Loc Scope : Type}
    (ops : component_type C Arg Loc Scope) (q : quirks) :
    (∀ (l : auto_list C) (ref : C), l.m_reference_object = some ref → l.m_enabled = true →
      (auto_list.destructor ops l).temporary = ops.call Member.stop [] l.m_temporary ∧
      (auto_list.destructor ops l).reference_object
        = some (ops.plus_eq ref (ops.call Member.stop [] l.m_temporary))) ∧
    (∀ (b : auto_bundle C) (ref : C), q.explicit_stop = false →
      b.m_reference_object = some ref → b.m_enabled = true →
      (auto_bundle.destructor ops q b).temporary = ops.call Member.stop [] b.m_temporary ∧
      (auto_bundle.destructor ops q b).reference_object
        = some (ops.plus_eq ref (ops.call Member.stop [] b.m_temporary))) ∧
    (∀ (tmp : C) (sc : Scope) (report_at_exit : Bool),
      (auto_list.ctor_ref ops tmp sc report_at_exit).m_enabled = true ∧
      (auto_list.ctor_ref ops tmp sc report_at_exit).m_reference_object = some tmp ∧
      (auto_bundle.ctor_ref ops q tmp sc report_at_exit).m_enabled = true ∧
      (auto_bundle.ctor_ref ops q tmp sc report_at_exit).m_reference_object = some tmp) ∧
    (∀ l : auto_list C, l.m_reference_object = none →
      (auto_list.destructor ops l).reference_object = none) ∧
    (∀ b : auto_bundle C, b.m_reference_object = none →
      (auto_bundle.destructor ops q b).reference_object = none) := by
  refine ⟨?_, ?_, ?_, ?_, ?_⟩
  · intro l ref h hl; simp [auto_list.destructor, hl, h]
  · intro b ref hq h hb; simp [auto_bundle.destructor, hq, hb, h]
  · intro tmp sc r
    refine ⟨rfl, rfl, ?_, ?_⟩ <;> cases hs : q.explicit_start <;>
      simp [auto_bundle.ctor_ref, hs]
  · intro l h
    cases he : l.m_enabled <;> simp [auto_list.destructor, he, h]
  · intro b h
    cases he : b.m_enabled <;> cases hq : q.explicit_stop <;>
      simp [auto_bundle.destructor, he, hq, h]

/-- Witness of the amended C7 on a bundle built by the reference-object constructor:
the reference object `[mark]` receives the cloned, started and stopped temporary. -/
theorem destructor_accumulates_stopped_witness :
    ({ } : quirks).explicit_stop = false ∧
    (auto_bundle.ctor_ref ex_component_type { } [Member.mark] () false).m_reference_object
      = some [Member.mark] ∧
    (auto_bundle.ctor_ref ex_component_type { } [Member.mark] () false).m_enabled = true ∧
    (auto_bundle.destructor ex_component_type { }
        (auto_bundle.ctor_ref ex_component_type { } [Member.mark] () false)).reference_object
      = some [Member.mark, Member.mark, Member.start, Member.stop] :=
  ⟨rfl, rfl, rfl,
   ((destructor_accumulates_stopped ex_component_type { }).2.1
      (auto_bundle.ctor_ref ex_component_type { } [Member.mark] () false)
      [Member.mark] rfl rfl rfl).2.trans (by decide)⟩

/-- C8. On an `auto_list` or `auto_bundle` whose enabled flag is false, each of the
fifteen forwarding members returns the wrapper as it was, for every argument pack,
so the wrapped bundle is unchanged; the destructor leaves the temporary as it was
(not stopped), leaves the reference object as it was and prints nothing. -/
theorem disabled_wrapper_is_inert {C Arg Loc Scope : Type}
    (ops : component_type C Arg Loc Scope) (q : quirks) (l : auto_list C)
    (b : auto_bundle C) (hl : l.m_enabled = false) (hb : b.m_enabled = false) :
    (∀ name args, auto_list.member ops name args l = l) ∧
    (∀ name args, (auto_list.member ops name args l).m_temporary = l.m_temporary) ∧
    auto_list.destructor ops l
      = { temporary := l.m_temporary, reference_object := l.m_reference_object, cout := [] } ∧
    (∀ name args, auto_bundle.member ops name args b = b) ∧
    (∀ name args, (auto_bundle.member ops name args b).m_temporary = b.m_temporary) ∧
    auto_bundle.destructor ops q b
      = { temporary := b.m_temporary, reference_object := b.m_reference_object, cout := [] } := by
  refine ⟨?_, ?_, ?_, ?_, ?_, ?_⟩
  · intro name args; simp [auto_list.member, hl]
  · intro name args; simp [auto_list.member, hl]
  · simp [auto_list.destructor, hl]
  · intro name args; simp [auto_bundle.member, hb]
  · intro name args; simp [auto_bundle.member, hb]
  · cases h : q.explicit_stop <;> simp [auto_bundle.destructor, hb, h]

/-- Witness of C8 on a disabled list and a disabled bundle that holds a reference
object. -/
theorem disabled_wrapper_is_inert_witness :
    auto_list.member ex_component_type Member.stop [1]
        { m_enabled := false, m_temporary := [Member.start] }
      = { m_enabled := false, m_temporary := [Member.start] } ∧
    auto_bundle.destructor ex_component_type { }
        { m_enabled := false, m_reference_object := some [], m_temporary := [Member.start] }
      = { temporary := [Member.start], reference_object := some [], cout := [] } :=
  ⟨(disabled_wrapper_is_inert ex_component_type { }
      { m_enabled := false, m_temporary := [Member.start] }
      { m_enabled := false, m_reference_object := some [], m_temporary := [Member.start] }
      rfl rfl).1 Member.stop [1],
   (disabled_wrapper_is_inert ex_component_type { }
      { m_enabled := false, m_temporary := [Member.start] }
      { m_enabled := false, m_reference_object := some [], m_temporary := [Member.start] }
      rfl rfl).2.2.2.2.2⟩

theorem auto_list.destructor_temporary {C Arg Loc Scope : Type}
    (ops : component_type C Arg Loc Scope) (a : auto_list C) (h : a.m_enabled = true) :
    (auto_list.destructor ops a).temporary = ops.call Member.stop [] a.m_temporary := by
  unfold auto_list.destructor
  cases hr : a.m_reference_object <;> simp [h]

/-- C9, as stated, fails: with `settings::enabled()` false, an `auto_list` built from
a key does not run the initializer, does not start the wrapped list, and its
destructor does not stop it. -/
theorem disabled_settings_list_not_started :
    (auto_list.ctor ex_component_type false (Label.key "main") () false
        (fun a => { a with m_temporary := a.m_temporary ++ [Member.mark] })).m_temporary = [] ∧
    (auto_list.ctor ex_component_type false (Label.key "main") () false
        (fun a => { a with m_temporary := a.m_temporary ++ [Member.mark] })).m_temporary
      ≠ ex_component_type.call Member.start []
          (ex_component_type.construct (Label.key "main") false () ++ [Member.mark]) ∧
    (auto_list.destructor ex_component_type
        (auto_list.ctor ex_component_type false (Label.key "main") () false
          (fun a => { a with m_temporary := a.m_temporary ++ [Member.mark] }))).temporary
      ≠ ex_component_type.call Member.stop []
          (auto_list.ctor ex_component_type false (Label.key "main") () false
            (fun a => { a with m_temporary := a.m_temporary ++ [Member.mark] })).m_temporary := by
  decide

/-- C9, amended. When `settings::enabled()` is true, the constructor of an
`auto_list` from a key, a captured location or a hash runs the initializer on the
new object and then `start` on the wrapped list; and when the initializer leaves
the object enabled, the destructor runs `stop` on the wrapped list.  When
`settings::enabled()` is false, the constructor runs neither the initializer nor
`start`, whatever the label, and the destructor does not stop the wrapped list. -/
theorem list_ctor_starts_dtor_stops {C Arg Loc Scope : Type}
    (ops : component_type C Arg Loc Scope) (label : Label Loc) (sc : Scope)
    (report_at_exit : Bool) (_func : auto_list C → auto_list C) :
    auto_list.ctor ops true label sc report_at_exit _func
      = { _func ⟨true, report_at_exit, ops.construct label true sc, none⟩ with
          m_temporary := ops.call Member.start []
            (_func ⟨true, report_at_exit, ops.construct label true sc, none⟩).m_temporary } ∧
    ((_func ⟨true, report_at_exit, ops.construct label true sc, none⟩).m_enabled = true →
      (auto_list.destructor ops
          (auto_list.ctor ops true label sc report_at_exit _func)).temporary
        = ops.call Member.stop []
            (auto_list.ctor ops true label sc report_at_exit _func).m_temporary) ∧
    auto_list.ctor ops false label sc report_at_exit _func
      = ⟨false, report_at_exit, ops.construct label false sc, none⟩ ∧
    auto_list.destructor ops (auto_list.ctor ops false label sc report_at_exit _func)
      = ⟨ops.construct label false sc, none, []⟩ := by
  refine ⟨rfl, ?_, rfl, rfl⟩
  intro henabled
  apply auto_list.destructor_temporary
  simp [auto_list.ctor, henabled]

/-- Witness of the amended C9 for a list built from a hash with an initializer that
marks the wrapped list. -/
theorem list_ctor_starts_dtor_stops_witness :
    (auto_list.ctor ex_component_type true (Label.hash 7) () false
        (fun a => { a with m_temporary := a.m_temporary ++ [Member.mark] })).m_temporary
      = [Member.mark, Member.start] ∧
    (auto_list.destructor ex_component_type
        (auto_list.ctor ex_component_type true (Label.hash 7) () false
          (fun a => { a with m_temporary := a.m_temporary ++ [Member.mark] }))).temporary
      = [Member.mark, Member.start, Member.stop] ∧
    (auto_list.ctor ex_component_type false (Label.hash 7) () false
        (fun a => { a with m_temporary := a.m_temporary ++ [Member.mark] })).m_temporary
      = [] :=
  ⟨by decide,
   ((list_ctor_starts_dtor_stops ex_component_type (Label.hash 7) () false
      (fun a => { a with m_temporary := a.m_temporary ++ [Member.mark] })).2.1 rfl).trans
     (by decide),
   congrArg auto_list.m_temporary
     (list_ctor_starts_dtor_stops ex_component_type (Label.hash 7) () false
       (fun a => { a with m_temporary := a.m_temporary ++ [Member.mark] })).2.2.1⟩

end tim

namespace tim
namespace node

theorem idset_foldl_insert (l : List Int) :
    ∀ dst : idset_type, l.foldl (fun acc itr => insert itr acc) dst = dst ∪ l.toFinset := by
  induction l with
  | nil => intro dst; simp
  | cons x l ih =>
    intro dst
    simp only [List.foldl_cons, ih, List.toFinset_cons]
    ext y
    simp only [Finset.mem_union, Finset.mem_insert]
    tauto

theorem idset_insert_all_eq_union (dst src : idset_type) :
    idset_insert_all dst src = dst ∪ src := by
  unfold idset_insert_all
  rw [idset_foldl_insert, Finset.sort_toFinset]

/-- C12. The node `graph(id, obj, depth, tid, pid, is_dummy)` holds the tuple
`(is_dummy, tid, pid, id, depth, obj, default stats)`: each accessor returns the
argument of the same name, `hash()` is `id()`, `data()` is `obj()`, and `stats()`
is the default-constructed statistics value. -/
theorem graph_ctor_accessors {Tp St : Type} [Inhabited St] (id : Nat) (obj : Tp)
    (depth : Int) (tid pid : Nat) (is_dummy : Bool) :
    (graph.ctor id obj depth tid pid is_dummy : graph Tp St)
      = ⟨is_dummy, tid, pid, id, depth, obj, default⟩ ∧
    (graph.ctor id obj depth tid pid is_dummy : graph Tp St).is_dummy = is_dummy ∧
    (graph.ctor id obj depth tid pid is_dummy : graph Tp St).tid = tid ∧
    (graph.ctor id obj depth tid pid is_dummy : graph Tp St).pid = pid ∧
    (graph.ctor id obj depth tid pid is_dummy : graph Tp St).id = id ∧
    (graph.ctor id obj depth tid pid is_dummy : graph Tp St).hash = id ∧
    (graph.ctor id obj depth tid pid is_dummy : graph Tp St).depth = depth ∧
    (graph.ctor id obj depth tid pid is_dummy : graph Tp St).obj = obj ∧
    (graph.ctor id obj depth tid pid is_dummy : graph Tp St).data = obj ∧
    (graph.ctor id obj depth tid pid is_dummy : graph Tp St).stats = default :=
  ⟨rfl, rfl, rfl, rfl, rfl, rfl, rfl, rfl, rfl, rfl⟩

/-- C13. The node `result(hash, data, prefix, depth, rolling, hierarchy, stats, tid,
pid)` holds each argument in the field of the same name; `id()` is `hash()` and
`obj()` is `data()`; hash and rolling hash are not exchanged. -/
theorem result_ctor_accessors {Tp St : Type} (hash : Nat) (data : Tp) (pfx : String)
    (depth : Int) (rolling : Nat) (hierarchy : List Nat) (stats : St) (tid pid : Nat) :
    (result.ctor hash data pfx depth rolling hierarchy stats tid pid).tid = tid ∧
    (result.ctor hash data pfx depth rolling hierarchy stats tid pid).pid = pid ∧
    (result.ctor hash data pfx depth rolling hierarchy stats tid pid).depth = depth ∧
    (result.ctor hash data pfx depth rolling hierarchy stats tid pid).hash = hash ∧
    (result.ctor hash data pfx depth rolling hierarchy stats tid pid).id = hash ∧
    (result.ctor hash data pfx depth rolling hierarchy stats tid pid).rolling_hash = rolling ∧
    (result.ctor hash data pfx depth rolling hierarchy stats tid pid).prefix_ = pfx ∧
    (result.ctor hash data pfx depth rolling hierarchy stats tid pid).hierarchy = hierarchy ∧
    (result.ctor hash data pfx depth rolling hierarchy stats tid pid).data = data ∧
    (result.ctor hash data pfx depth rolling hierarchy stats tid pid).obj = data ∧
    (result.ctor hash data pfx depth rolling hierarchy stats tid pid).stats = stats :=
  ⟨rfl, rfl, rfl, rfl, rfl, rfl, rfl, rfl, rfl, rfl, rfl⟩

/-- C16. After `t += r` the inclusive and the exclusive entry of `t` are the old
entries plus those of `r`, in data and in stats; the thread-id set is the union of
the old set and that of `r`, and so is the process-id set; is_dummy, hash and depth
are those of the old `t`. -/
theorem tree_plus_eq_fields {Tp St : Type} [Add Tp] [Add St] (t r : tree Tp St) :
    (t.plus_eq r).inclusive.data = t.inclusive.data + r.inclusive.data ∧
    (t.plus_eq r).inclusive.stats = t.inclusive.stats + r.inclusive.stats ∧
    (t.plus_eq r).exclusive.data = t.exclusive.data + r.exclusive.data ∧
    (t.plus_eq r).exclusive.stats = t.exclusive.stats + r.exclusive.stats ∧
    (t.plus_eq r).tid = t.tid ∪ r.tid ∧
    (t.plus_eq r).pid = t.pid ∪ r.pid ∧
    (t.plus_eq r).is_dummy = t.is_dummy ∧
    (t.plus_eq r).hash = t.hash ∧
    (t.plus_eq r).depth = t.depth :=
  ⟨rfl, rfl, rfl, rfl, idset_insert_all_eq_union t.tid r.tid,
    idset_insert_all_eq_union t.pid r.pid, rfl, rfl, rfl⟩

/-- C19. When `a == b`, then `a == b` still holds after `a += c` and after
`a -= c`, for all result nodes: `+=` and `-=` leave depth, hash, rolling hash,
prefix, tid, pid and hierarchy of `a` as they were. -/
theorem result_merge_keeps_identity {Tp St : Type} [Add Tp] [Add St] [Sub Tp] [Sub St]
    (a b c : result Tp St) (h : a.eq b = true) :
    (a.plus_eq c).eq b = true ∧ (a.minus_eq c).eq b = true ∧
    ((a.plus_eq c).depth = a.depth ∧ (a.plus_eq c).hash = a.hash ∧
      (a.plus_eq c).rolling_hash = a.rolling_hash ∧ (a.plus_eq c).prefix_ = a.prefix_ ∧
      (a.plus_eq c).tid = a.tid ∧ (a.plus_eq c).pid = a.pid ∧
      (a.plus_eq c).hierarchy = a.hierarchy) ∧
    ((a.minus_eq c).depth = a.depth ∧ (a.minus_eq c).hash = a.hash ∧
      (a.minus_eq c).rolling_hash = a.rolling_hash ∧ (a.minus_eq c).prefix_ = a.prefix_ ∧
      (a.minus_eq c).tid = a.tid ∧ (a.minus_eq c).pid = a.pid ∧
      (a.minus_eq c).hierarchy = a.hierarchy) :=
  ⟨h, h, ⟨rfl, rfl, rfl, rfl, rfl, rfl, rfl⟩, ⟨rfl, rfl, rfl, rfl, rfl, rfl, rfl⟩⟩

/-- Witness of C19 on two nodes with the same key and different data, merged with
a node of another key. -/
theorem result_merge_keeps_identity_witness :
    result.eq (⟨1, 2, 3, 40, 50, "main", [40], 7, 1⟩ : result Int Int)
        ⟨9, 8, 3, 40, 50, "main", [], 0, 0⟩ = true ∧
    result.eq (result.plus_eq (⟨1, 2, 3, 40, 50, "main", [40], 7, 1⟩ : result Int Int)
        ⟨0, 0, 5, 41, 51, "other", [], 100, 2⟩) ⟨9, 8, 3, 40, 50, "main", [], 0, 0⟩ = true :=
  ⟨by decide,
   (result_merge_keeps_identity ⟨1, 2, 3, 40, 50, "main", [40], 7, 1⟩
      ⟨9, 8, 3, 40, 50, "main", [], 0, 0⟩ ⟨0, 0, 5, 41, 51, "other", [], 100, 2⟩
      (by decide)).1⟩

/-- C20. Two graph nodes compare equal exactly when their id and depth agree;
replacing is_dummy, tid, pid, the component value and the statistics on either side
leaves the comparison unchanged; `!=` is the negation of `==`; and `==` is
reflexive, symmetric and transitive. -/
theorem graph_eq_iff_id_depth {Tp St : Type} (a b : graph Tp St) :
    (a.eq b = true ↔ (a.id = b.id ∧ a.depth = b.depth)) ∧
    (∀ (d1 d2 : Bool) (t1 p1 t2 p2 : Nat) (o1 o2 : Tp) (s1 s2 : St),
      graph.eq { a with is_dummy := d1, tid := t1, pid := p1, obj := o1, stats := s1 }
          { b with is_dummy := d2, tid := t2, pid := p2, obj := o2, stats := s2 }
        = a.eq b) ∧
    a.ne b = !(a.eq b) ∧
    a.eq a = true ∧
    (a.eq b = true → b.eq a = true) ∧
    (∀ c : graph Tp St, a.eq b = true → b.eq c = true → a.eq c = true) := by
  refine ⟨by simp [graph.eq], fun _ _ _ _ _ _ _ _ _ _ => rfl, rfl, by simp [graph.eq], ?_, ?_⟩
  · simp only [graph.eq, Bool.and_eq_true, decide_eq_true_eq]
    rintro ⟨h1, h2⟩
    exact ⟨h1.symm, h2.symm⟩
  · intro c
    simp only [graph.eq, Bool.and_eq_true, decide_eq_true_eq]
    rintro ⟨h1, h2⟩ ⟨h3, h4⟩
    exact ⟨h1.trans h3, h2.trans h4⟩

/-- Witness of C20: two nodes that differ in every field but id and depth compare
equal in both directions. -/
theorem graph_eq_iff_id_depth_witness :
    graph.eq (⟨false, 1, 2, 77, 3, 10, 4⟩ : graph Int Int) ⟨true, 5, 6, 77, 3, -7, 9⟩ = true ∧
    graph.eq (⟨true, 5, 6, 77, 3, -7, 9⟩ : graph Int Int) ⟨false, 1, 2, 77, 3, 10, 4⟩ = true :=
  ⟨by decide,
   (graph_eq_iff_id_depth (⟨false, 1, 2, 77, 3, 10, 4⟩ : graph Int Int)
      ⟨true, 5, 6, 77, 3, -7, 9⟩).2.2.2.2.1 (by decide)⟩

end node
end tim

namespace tim
namespace operation

theorem internal.storage_sfinae_eq {σ V S I : Type} (c : SecondaryComponent σ V)
    (append : S → secondary_data_t I V → S) (setting : Bool) (st : Option S) (itr : I)
    (rhs : σ) :
    internal.add_secondary_false.storage_sfinae c append setting st itr rhs =
      match c.get_secondary with
      | some g => internal.append_secondary c append setting g st itr rhs
      | none => st := by
  cases h : c.get_secondary <;>
    simp [internal.add_secondary_false.storage_sfinae,
      internal.add_secondary_false.storage_sfinae_overloads, h] <;> rfl

/-- C11. When the component has `get_secondary()`, is runtime-enabled, the storage
pointer is not null and `settings::add_secondary()` is true, `add_secondary(storage,
itr, component)` appends the records `(itr, name, value)` of the pairs that
`get_secondary()` returns, one per pair and in the order of the container; when one
of the three conditions fails the storage is unchanged; and when the component has
no `get_secondary()` and is not flagged as having secondary data the storage is
unchanged. -/
theorem add_secondary_appends_each_pair {σ V S I : Type} (c : SecondaryComponent σ V)
    (append : S → secondary_data_t I V → S) (setting : Bool) (st : Option S) (itr : I)
    (rhs : σ) :
    (∀ g s, c.get_secondary = some g → c.runtime_enabled = true → st = some s →
      setting = true →
      add_secondary c append setting st itr rhs
        = some (some (((g rhs).map (fun d => (itr, d.1, d.2))).foldl append s))) ∧
    (∀ g, c.get_secondary = some g →
      (c.runtime_enabled = false ∨ st = none ∨ setting = false) →
      add_secondary c append setting st itr rhs = some st) ∧
    (c.get_secondary = none → c.secondary_data = false →
      add_secondary c append setting st itr rhs = some st) := by
  refine ⟨?_, ?_, ?_⟩
  · intro g s hg he hs hset
    cases hf : c.secondary_data <;>
      simp [add_secondary, internal.add_secondary_true.call,
        internal.add_secondary_false.call, internal.storage_sfinae_eq,
        internal.append_secondary, hf, hg, he, hs, hset, List.foldl_map]
  · intro g hg hcond
    cases hf : c.secondary_data <;>
      rcases hcond with h | h | h <;>
      simp [add_secondary, internal.add_secondary_true.call,
        internal.add_secondary_false.call, internal.storage_sfinae_eq,
        internal.append_secondary, hf, hg, h]
  · intro hg hf
    simp [add_secondary, internal.add_secondary_false.call, internal.storage_sfinae_eq,
      hf, hg]

/-- Witness of C11 on a storage that is the list of the records appended to it. -/
theorem add_secondary_appends_each_pair_witness :
    ex_secondary.get_secondary = some (fun s => s) ∧
    add_secondary ex_secondary (fun (s : List (secondary_data_t Nat Int)) r => s ++ [r]) true
        (some [(0, "root", 1)]) 5 [("a", 10), ("b", -2)]
      = some (some [(0, "root", 1), (5, "a", 10), (5, "b", -2)]) :=
  ⟨rfl,
   (add_secondary_appends_each_pair ex_secondary
      (fun (s : List (secondary_data_t Nat Int)) r => s ++ [r]) true
      (some [(0, "root", 1)]) 5 [("a", 10), ("b", -2)]).1 (fun s => s) [(0, "root", 1)]
      rfl rfl rfl rfl⟩

/-- C17. On a component that is runtime-disabled or not running, the constructor
form and the call-operator form of `operation::stop` leave the object as it is and
make no call on it, neither `set_stopped` nor a `stop` member, for every argument
pack. -/
theorem stop_inert_when_disabled_or_idle {σ α : Type} (c : Component σ α) (obj : σ)
    (args : α) (h : c.runtime_enabled = false ∨ c.is_running obj = false) :
    stop c obj args = (obj, []) ∧ stop.call c obj args = (obj, []) := by
  rcases h with h | h
  · simp [stop, stop.impl, stop.call, h]
  · cases he : c.runtime_enabled <;> simp [stop, stop.impl, stop.call, h, he]

/-- Witness of C17 on a timer that is not running. -/
theorem stop_inert_when_disabled_or_idle_witness :
    (invoke.ex_timer 0).is_running (false, 4) = false ∧
    stop (invoke.ex_timer 0) (false, 4) 9 = ((false, 4), []) ∧
    stop.call (invoke.ex_timer 0) (false, 4) 9 = ((false, 4), []) :=
  ⟨rfl, stop_inert_when_disabled_or_idle (invoke.ex_timer 0) (false, 4) 9 (Or.inr rfl)⟩

/-- C18. For a component with a `stop` member and an idempotent `set_stopped`, the
constructor form and the call-operator form of `operation::stop` leave the object
in the same state from every starting state, and make the same calls of `stop`
members: none when the type is runtime-disabled or the object is not running, and
otherwise one call of the same member after `set_stopped`. -/
theorem stop_forms_agree {σ α : Type} (c : Component σ α) (obj : σ) (args : α)
    (hmem : (c.stop_args.isSome || c.stop_noargs.isSome) = true)
    (hidem : ∀ x, c.set_stopped (c.set_stopped x) = c.set_stopped x) :
    (stop c obj args).1 = (stop.call c obj args).1 ∧
    (stop c obj args).2.filter Event.is_stop_member
      = (stop.call c obj args).2.filter Event.is_stop_member ∧
    ((c.runtime_enabled = true ∧ c.is_running obj = true) →
      ((stop c obj args).2.filter Event.is_stop_member).length = 1 ∧
      Event.set_stopped ∈ (stop c obj args).2 ∧
      Event.set_stopped ∈ (stop.call c obj args).2) ∧
    (¬ (c.runtime_enabled = true ∧ c.is_running obj = true) →
      stop c obj args = (obj, []) ∧ stop.call c obj args = (obj, [])) := by
  cases he : c.runtime_enabled <;> cases hr : c.is_running obj <;>
    cases h1 : c.stop_args <;> cases h2 : c.stop_noargs <;>
    simp [stop, stop.impl, stop.call, stop.do_sfinae_eq, he, hr, h1, h2, hidem,
      Event.is_stop_member] at hmem ⊢

/-- Witness of C18 on a running timer. -/
theorem stop_forms_agree_witness :
    ((invoke.ex_timer 0).stop_args.isSome || (invoke.ex_timer 0).stop_noargs.isSome) = true ∧
    (∀ x, (invoke.ex_timer 0).set_stopped ((invoke.ex_timer 0).set_stopped x)
      = (invoke.ex_timer 0).set_stopped x) ∧
    (stop (invoke.ex_timer 0) (true, 4) 9).1 = (false, 5) ∧
    (stop.call (invoke.ex_timer 0) (true, 4) 9).1 = (false, 5) :=
  ⟨rfl, fun _ => rfl,
   ((stop_forms_agree (invoke.ex_timer 0) (true, 4) 9 rfl (fun _ => rfl)).1.trans
      (by decide)),
   by decide⟩

end operation

/-- C14. The member `auto_bundle::count()` returns the `count()` of the wrapped
bundle when the wrapper is enabled and 0 when it is disabled. -/
theorem auto_bundle_count_gated {C : Type} (count : C → Nat) (b : auto_bundle C) :
    (b.m_enabled = true → b.count count = count b.m_temporary) ∧
    (b.m_enabled = false → b.count count = 0) := by
  constructor <;> intro h <;> simp [auto_bundle.count, h]

/-- Witness of C14 on an enabled and on a disabled wrapper of a bundle with three
recorded calls, counted by their number. -/
theorem auto_bundle_count_gated_witness :
    auto_bundle.count List.length
        ({ m_temporary := [Member.start, Member.mark, Member.stop] } : auto_bundle (List Member))
      = 3 ∧
    auto_bundle.count List.length
        ({ m_enabled := false, m_temporary := [Member.start, Member.mark, Member.stop] } :
          auto_bundle (List Member))
      = 0 :=
  ⟨(auto_bundle_count_gated List.length
      { m_temporary := [Member.start, Member.mark, Member.stop] }).1 rfl,
   (auto_bundle_count_gated List.length
      { m_enabled := false, m_temporary := [Member.start, Member.mark, Member.stop] }).2 rfl⟩

/-- C15. `get` of a `component_hybrid` is `get` of the tuple half followed by `get`
of the list half: its length is the sum of the two lengths, its first entries are
those of the tuple half in their order and the entries after them are those of the
list half in their order; `get_labeled` is built the same way from `get_labeled` of
the two halves. -/
theorem hybrid_get_is_concatenation {T L V : Type} (get_tuple : T → List V)
    (get_list : L → List V) (get_labeled_tuple : T → List (String × V))
    (get_labeled_list : L → List (String × V)) (h : component_hybrid T L) :
    get get_tuple get_list h = get_tuple h.get_lhs ++ get_list h.get_rhs ∧
    (get get_tuple get_list h).length
      = (get_tuple h.get_lhs).length + (get_list h.get_rhs).length ∧
    (∀ i, i < (get_tuple h.get_lhs).length →
      (get get_tuple get_list h)[i]? = (get_tuple h.get_lhs)[i]?) ∧
    (∀ i, (get get_tuple get_list h)[(get_tuple h.get_lhs).length + i]?
      = (get_list h.get_rhs)[i]?) ∧
    get_labeled get_labeled_tuple get_labeled_list h
      = get_labeled_tuple h.get_lhs ++ get_labeled_list h.get_rhs ∧
    (get_labeled get_labeled_tuple get_labeled_list h).length
      = (get_labeled_tuple h.get_lhs).length + (get_labeled_list h.get_rhs).length ∧
    (∀ i, i < (get_labeled_tuple h.get_lhs).length →
      (get_labeled get_labeled_tuple get_labeled_list h)[i]?
        = (get_labeled_tuple h.get_lhs)[i]?) ∧
    (∀ i, (get_labeled get_labeled_tuple get_labeled_list h)[
        (get_labeled_tuple h.get_lhs).length + i]?
      = (get_labeled_list h.get_rhs)[i]?) := by
  refine ⟨rfl, by simp [get, std.tuple_cat], ?_, ?_, rfl, by simp [get_labeled, std.tuple_cat],
    ?_, ?_⟩
  · intro i hi
    simp [get, std.tuple_cat, List.getElem?_append_left hi]
  · intro i
    simp [get, std.tuple_cat, List.getElem?_append_right]
  · intro i hi
    simp [get_labeled, std.tuple_cat, List.getElem?_append_left hi]
  · intro i
    simp [get_labeled, std.tuple_cat, List.getElem?_append_right]

/-- Witness of C15 on a hybrid whose halves are the lists of their values. -/
theorem hybrid_get_is_concatenation_witness :
    get (fun (t : List Int) => t) (fun (l : List Int) => l) ⟨[1, 2], [3]⟩ = [1, 2, 3] ∧
    (get (fun (t : List Int) => t) (fun (l : List Int) => l) ⟨[1, 2], [3]⟩)[1]? = some 2 :=
  ⟨(hybrid_get_is_concatenation (fun (t : List Int) => t) (fun (l : List Int) => l)
      (fun _ => []) (fun _ => []) ⟨[1, 2], [3]⟩).1,
   ((hybrid_get_is_concatenation (fun (t : List Int) => t) (fun (l : List Int) => l)
      (fun _ => []) (fun _ => []) ⟨[1, 2], [3]⟩).2.2.1 1 (by decide)).trans (by decide)⟩

end tim

namespace tim
namespace node

/-- C21. For every tree node `t` and graph node `g`, the tree after `t = g` is the
tree `tree(g)`: is_dummy, hash and depth are those of `g`, the tid set is `{g.tid}`,
the pid set is `{g.pid}`, and the inclusive and the exclusive entry are
`(g.data, g.stats)`; the result is the same whatever `t` was. -/
theorem tree_assign_eq_ctor {Tp St : Type} (t : tree Tp St) (g : graph Tp St) :
    t.assign_graph g = tree.ctor_graph g ∧
    (t.assign_graph g).is_dummy = g.is_dummy ∧
    (t.assign_graph g).hash = g.hash ∧
    (t.assign_graph g).depth = g.depth ∧
    (t.assign_graph g).tid = {(g.tid : Int)} ∧
    (t.assign_graph g).pid = {(g.pid : Int)} ∧
    (t.assign_graph g).inclusive = ⟨g.data, g.stats⟩ ∧
    (t.assign_graph g).exclusive = ⟨g.data, g.stats⟩ ∧
    (∀ t2 : tree Tp St, t2.assign_graph g = t.assign_graph g) :=
  ⟨rfl, rfl, rfl, rfl, rfl, rfl, rfl, rfl, fun _ => rfl⟩

/-- C22. After `t -= r` the tid set, the pid set, is_dummy, hash and depth of `t`
are as before and the inclusive and exclusive entries are reduced by those of `r`;
so after `(t += r) -= r` the tid set is the union of those of `t` and `r`, and so is
the pid set, which is the set of `t` again only when `t` already held every id of
`r`. -/
theorem tree_minus_eq_keeps_ids {Tp St : Type} [Add Tp] [Add St] [Sub Tp] [Sub St]
    (t r : tree Tp St) :
    (t.minus_eq r).tid = t.tid ∧
    (t.minus_eq r).pid = t.pid ∧
    (t.minus_eq r).is_dummy = t.is_dummy ∧
    (t.minus_eq r).hash = t.hash ∧
    (t.minus_eq r).depth = t.depth ∧
    (t.minus_eq r).inclusive = t.inclusive.minus_eq r.inclusive ∧
    (t.minus_eq r).exclusive = t.exclusive.minus_eq r.exclusive ∧
    ((t.plus_eq r).minus_eq r).tid = t.tid ∪ r.tid ∧
    ((t.plus_eq r).minus_eq r).pid = t.pid ∪ r.pid ∧
    (((t.plus_eq r).minus_eq r).tid = t.tid ↔ r.tid ⊆ t.tid) ∧
    (((t.plus_eq r).minus_eq r).pid = t.pid ↔ r.pid ⊆ t.pid) := by
  have htid : ((t.plus_eq r).minus_eq r).tid = t.tid ∪ r.tid :=
    idset_insert_all_eq_union t.tid r.tid
  have hpid : ((t.plus_eq r).minus_eq r).pid = t.pid ∪ r.pid :=
    idset_insert_all_eq_union t.pid r.pid
  refine ⟨rfl, rfl, rfl, rfl, rfl, rfl, rfl, htid, hpid, ?_, ?_⟩
  · rw [htid]; exact Finset.union_eq_left
  · rw [hpid]; exact Finset.union_eq_left

/-- Witness of C22: a node of thread 1 merged with a node of thread 2 and reduced
by it again keeps both thread ids. -/
theorem tree_minus_eq_keeps_ids_witness :
    ((tree.plus_eq (⟨false, 7, 1, {1}, {0}, ⟨3, 4⟩, ⟨1, 1⟩⟩ : tree Int Int)
        ⟨false, 7, 1, {2}, {0}, ⟨5, 6⟩, ⟨1, 1⟩⟩).minus_eq
        ⟨false, 7, 1, {2}, {0}, ⟨5, 6⟩, ⟨1, 1⟩⟩).tid = {1, 2} ∧
    ((tree.plus_eq (⟨false, 7, 1, {1}, {0}, ⟨3, 4⟩, ⟨1, 1⟩⟩ : tree Int Int)
        ⟨false, 7, 1, {2}, {0}, ⟨5, 6⟩, ⟨1, 1⟩⟩).minus_eq
        ⟨false, 7, 1, {2}, {0}, ⟨5, 6⟩, ⟨1, 1⟩⟩).tid ≠ {1} :=
  ⟨(tree_minus_eq_keeps_ids (⟨false, 7, 1, {1}, {0}, ⟨3, 4⟩, ⟨1, 1⟩⟩ : tree Int Int)
      ⟨false, 7, 1, {2}, {0}, ⟨5, 6⟩, ⟨1, 1⟩⟩).2.2.2.2.2.2.2.1.trans (by decide),
   fun h => absurd
     (((tree_minus_eq_keeps_ids (⟨false, 7, 1, {1}, {0}, ⟨3, 4⟩, ⟨1, 1⟩⟩ : tree Int Int)
        ⟨false, 7, 1, {2}, {0}, ⟨5, 6⟩, ⟨1, 1⟩⟩).2.2.2.2.2.2.2.2.2.1).mp h)
     (by decide)⟩

end node

/-- C23. A wrapper built by the reference-object constructor is enabled, holds the
given bundle as its reference object and wraps the started clone of that bundle; for
`auto_bundle` the clone is started unless the `explicit_start` quirk is configured.
The constructor does not read `settings::enabled()`. -/
theorem reference_ctor_always_enabled {C Arg Loc Scope : Type}
    (ops : component_type C Arg Loc Scope) (q : quirks) (tmp : C) (sc : Scope)
    (report_at_exit : Bool) :
    (auto_list.ctor_ref ops tmp sc report_at_exit).m_enabled = true ∧
    (auto_list.ctor_ref ops tmp sc report_at_exit).m_reference_object = some tmp ∧
    (auto_list.ctor_ref ops tmp sc report_at_exit).m_temporary
      = ops.call Member.start [] (ops.clone tmp true sc) ∧
    (auto_bundle.ctor_ref ops q tmp sc report_at_exit).m_enabled = true ∧
    (auto_bundle.ctor_ref ops q tmp sc report_at_exit).m_reference_object = some tmp ∧
    (q.explicit_start = false →
      (auto_bundle.ctor_ref ops q tmp sc report_at_exit).m_temporary
        = ops.call Member.start [] (ops.clone tmp true sc)) ∧
    (q.explicit_start = true →
      (auto_bundle.ctor_ref ops q tmp sc report_at_exit).m_temporary
        = ops.clone tmp true sc) := by
  refine ⟨rfl, rfl, rfl, ?_, ?_, ?_, ?_⟩
  · cases hs : q.explicit_start <;> simp [auto_bundle.ctor_ref, hs]
  · cases hs : q.explicit_start <;> simp [auto_bundle.ctor_ref, hs]
  · intro hs; simp [auto_bundle.ctor_ref, hs]
  · intro hs; simp [auto_bundle.ctor_ref, hs]

/-- Witness of C23 on a bundle type without quirks. -/
theorem reference_ctor_always_enabled_witness :
    ({ } : quirks).explicit_start = false ∧
    (auto_bundle.ctor_ref ex_component_type { } [Member.mark] () false).m_enabled = true ∧
    (auto_bundle.ctor_ref ex_component_type { } [Member.mark] () false).m_temporary
      = [Member.mark, Member.start] :=
  ⟨rfl,
   (reference_ctor_always_enabled ex_component_type { } [Member.mark] () false).2.2.2.1,
   ((reference_ctor_always_enabled ex_component_type { } [Member.mark] () false).2.2.2.2.2.1
      rfl).trans (by decide)⟩

namespace cereal

/-- C27. `save` writes the six fields hash, prefix, depth, entry, stats and
rolling_hash under these names and in this order, and `load` of what `save(r)` wrote
into any node `r0` succeeds and gives the node with these six fields of `r` and the
tid, pid and hierarchy of `r0`; this node compares equal to `r` and has the data
and the stats of `r`. -/
theorem result_save_load_roundtrip {Tp St : Type} (r r0 : node.result Tp St) :
    (save r).map Prod.fst = ["hash", "prefix", "depth", "entry", "stats", "rolling_hash"] ∧
    load (save r) r0
      = some ⟨r0.tid, r0.pid, r.depth, r.hash, r.rolling_hash, r.prefix_, r0.hierarchy,
          r.data, r.stats⟩ ∧
    (∀ r', load (save r) r0 = some r' →
      r'.eq r = true ∧ r'.data = r.data ∧ r'.stats = r.stats ∧
      r'.tid = r0.tid ∧ r'.pid = r0.pid ∧ r'.hierarchy = r0.hierarchy) := by
  have hload : load (save r) r0
      = some ⟨r0.tid, r0.pid, r.depth, r.hash, r.rolling_hash, r.prefix_, r0.hierarchy,
          r.data, r.stats⟩ := rfl
  refine ⟨rfl, hload, ?_⟩
  intro r' h
  rw [hload] at h
  cases h
  simp [node.result.eq]

/-- Witness of C27 on an integer valued node loaded into a node of another thread. -/
theorem result_save_load_roundtrip_witness :
    load (save (⟨1, 2, 3, 40, 50, "main", [40], 7, 1⟩ : node.result Int Int))
        ⟨9, 8, 0, 0, 0, "", [1], 0, 0⟩
      = some ⟨9, 8, 3, 40, 50, "main", [1], 7, 1⟩ :=
  (result_save_load_roundtrip (⟨1, 2, 3, 40, 50, "main", [40], 7, 1⟩ : node.result Int Int)
    ⟨9, 8, 0, 0, 0, "", [1], 0, 0⟩).2.1

end cereal
end tim

namespace ex_cxx_overhead

theorem fibonacci_unfold (n : Int) :
    fibonacci n = if n < 2 then n else fibonacci (n - 2) + fibonacci (n - 1) := by
  rw [fibonacci]

theorem recursion_tree_unfold (n : Int) :
    recursion_tree n
      = if n < 2 then [n] else n :: (recursion_tree (n - 2) ++ recursion_tree (n - 1)) := by
  rw [recursion_tree]

theorem fibonacci_cutoff_spec (cutoff : Int) :
    ∀ (k : Nat) (n : Int), n.toNat ≤ k → ∀ g : Globals,
      fibonacci_cutoff n cutoff g
        = (fibonacci n,
            { nlaps := g.nlaps + ((recursion_tree n).filter (fun m => decide (m > cutoff))).length
              auto_tuples := g.auto_tuples
                + ((recursion_tree n).filter (fun m => decide (m > cutoff))).length }) := by
  intro k
  induction k with
  | zero =>
    intro n hn g
    have h2 : n < 2 := by omega
    rw [fibonacci_cutoff, fibonacci_unfold, recursion_tree_unfold]
    by_cases hc : n > cutoff <;> simp [hc, h2]
  | succ k ih =>
    intro n hn g
    rw [fibonacci_cutoff, fibonacci_unfold n, recursion_tree_unfold n]
    by_cases h2 : n < 2
    · by_cases hc : n > cutoff <;> simp [hc, h2]
    · have ha : (n - 2).toNat ≤ k := by omega
      have hb : (n - 1).toNat ≤ k := by omega
      by_cases hc : n > cutoff
      · simp only [hc, h2, if_true, if_false, ih (n - 2) ha, ih (n - 1) hb]
        simp [List.filter_cons, hc, List.filter_append]
        constructor <;> omega
      · simp only [hc, h2, if_false, ih (n - 2) ha, ih (n - 1) hb]
        simp [List.filter_cons, hc, List.filter_append]
        constructor <;> omega

theorem nlaps_after_call (n cutoff : Int) (g : Globals) :
    (fibonacci_cutoff n cutoff g).2.nlaps
      = g.nlaps + ((recursion_tree n).filter (fun m => decide (m > cutoff))).length := by
  rw [fibonacci_cutoff_spec cutoff n.toNat n (le_refl _) g]

theorem recursion_tree_le :
    ∀ (k : Nat) (n : Int), n.toNat ≤ k → ∀ m ∈ recursion_tree n, m ≤ n := by
  intro k
  induction k with
  | zero =>
    intro n hn m hm
    have h2 : n < 2 := by omega
    rw [recursion_tree_unfold] at hm
    simp [h2] at hm
    omega
  | succ k ih =>
    intro n hn m hm
    rw [recursion_tree_unfold] at hm
    by_cases h2 : n < 2
    · simp [h2] at hm
      omega
    · simp only [h2, if_false, List.mem_cons, List.mem_append] at hm
      rcases hm with h | h | h
      · omega
      · have := ih (n - 2) (by omega) m h
        omega
      · have := ih (n - 1) (by omega) m h
        omega

theorem recursion_tree_head (n : Int) : n ∈ recursion_tree n := by
  rw [recursion_tree_unfold]
  by_cases h2 : n < 2 <;> simp [h2]

theorem fibonacci_natCast (k : Nat) : fibonacci (k : Int) = (Nat.fib k : Int) := by
  induction k using Nat.strong_induction_on with
  | _ k ih =>
    rw [fibonacci_unfold]
    match k, ih with
    | 0, _ => simp
    | 1, _ => simp
    | k + 2, ih =>
      have h2 : ¬ ((((k + 2 : Nat)) : Int) < 2) := by omega
      have e1 : (((k + 2 : Nat)) : Int) - 2 = ((k : Nat) : Int) := by omega
      have e2 : (((k + 2 : Nat)) : Int) - 1 = (((k + 1 : Nat)) : Int) := by omega
      rw [if_neg h2, e1, e2, ih k (by omega), ih (k + 1) (by omega), Nat.fib_add_two]
      push_cast
      ring

theorem fibonacci_in_range (m : Int) (hlo : -2 ^ 63 ≤ m) (hhi : m ≤ 92) :
    -2 ^ 63 ≤ fibonacci m ∧ fibonacci m < 2 ^ 63 := by
  by_cases h0 : m < 0
  · rw [fibonacci_unfold, if_pos (by omega)]
    constructor <;> omega
  · obtain ⟨k, rfl⟩ := Int.eq_ofNat_of_zero_le (not_lt.mp h0)
    rw [fibonacci_natCast]
    have hk : k ≤ 92 := by omega
    have hmono : Nat.fib k ≤ Nat.fib 92 := Nat.fib_mono hk
    have h92 : Nat.fib 92 = 7540113804746346429 := by norm_num [Nat.fib]
    have h3 : Nat.fib k ≤ 7540113804746346429 := h92 ▸ hmono
    constructor <;> omega

/-- C24. For every `n`, every cutoff and every state of the globals,
`fibonacci(n, cutoff)` returns the value of `fibonacci(n)`, which is `n` for `n < 2`
and `fibonacci(n - 2) + fibonacci(n - 1)` otherwise; both functions are total; and
for every `n` of the `int64_t` range up to 92 the value of `fibonacci(n)` lies in the
`int64_t` range. -/
theorem fibonacci_cutoff_same_answer (n cutoff : Int) (g : Globals) :
    (fibonacci_cutoff n cutoff g).1 = fibonacci n ∧
    fibonacci n = (if n < 2 then n else fibonacci (n - 2) + fibonacci (n - 1)) ∧
    (∀ m : Int, -2 ^ 63 ≤ m → m ≤ 92 → -2 ^ 63 ≤ fibonacci m ∧ fibonacci m < 2 ^ 63) := by
  refine ⟨?_, fibonacci_unfold n, fibonacci_in_range⟩
  rw [fibonacci_cutoff_spec cutoff n.toNat n (le_refl _) g]

/-- Witness of C24 at `n = 10`, whose answer is 55 with the cutoff 3. -/
theorem fibonacci_cutoff_same_answer_witness :
    (fibonacci_cutoff 10 3 ⟨0, 0⟩).1 = 55 ∧ -2 ^ 63 ≤ fibonacci 92 ∧ fibonacci 92 < 2 ^ 63 :=
  ⟨(fibonacci_cutoff_same_answer 10 3 ⟨0, 0⟩).1.trans (by simp [fibonacci]),
   (fibonacci_cutoff_same_answer 10 3 ⟨0, 0⟩).2.2 92 (by norm_num) (by norm_num)⟩

/-- C25. One call `fibonacci(n, cutoff)` adds to `nlaps` the number of calls in its
recursion tree whose first argument is greater than `cutoff`, and creates that many
timers; `fibonacci(n, n)`, the run without timing, leaves `nlaps` as it was and
creates no timer, for every `n`. -/
theorem nlaps_counts_calls_above_cutoff (n cutoff : Int) (g : Globals) :
    (fibonacci_cutoff n cutoff g).2.nlaps
      = g.nlaps + ((recursion_tree n).filter (fun m => decide (m > cutoff))).length ∧
    (fibonacci_cutoff n cutoff g).2.auto_tuples
      = g.auto_tuples + ((recursion_tree n).filter (fun m => decide (m > cutoff))).length ∧
    (fibonacci_cutoff n n g).2 = g ∧
    (run n false cutoff g).2 = g := by
  have hnn : (fibonacci_cutoff n n g).2 = g := by
    rw [fibonacci_cutoff_spec n n.toNat n (le_refl _) g]
    have hnil : (recursion_tree n).filter (fun m => decide (m > n)) = [] := by
      rw [List.filter_eq_nil_iff]
      intro m hm
      have := recursion_tree_le n.toNat n (le_refl _) m hm
      simp only [decide_eq_true_eq]
      omega
    simp [hnil]
  refine ⟨?_, ?_, hnn, ?_⟩
  · rw [fibonacci_cutoff_spec cutoff n.toNat n (le_refl _) g]
  · rw [fibonacci_cutoff_spec cutoff n.toNat n (le_refl _) g]
  · simp only [run]
    exact hnn

/-- Witness of C25 at `n = 6` and cutoff 3: the calls on 6, 5, 4 and 4 are counted. -/
theorem nlaps_counts_calls_above_cutoff_witness :
    (fibonacci_cutoff 6 3 ⟨0, 0⟩).2.nlaps = 4 ∧ (fibonacci_cutoff 6 6 ⟨0, 0⟩).2 = ⟨0, 0⟩ :=
  ⟨(nlaps_counts_calls_above_cutoff 6 3 ⟨0, 0⟩).1.trans (by simp [recursion_tree]),
   (nlaps_counts_calls_above_cutoff 6 3 ⟨0, 0⟩).2.2.1⟩

theorem int_wrap_of_range (x : Int) (hlo : -2147483648 ≤ x) (hhi : x ≤ 2147483647) :
    int_wrap x = x := by
  unfold int_wrap
  omega

/-- C26, as stated, fails: for `nfib = INT_MIN` the `int` subtraction `nfib - 25`
wraps around to 2147483623, the top-level call of the timed run does not satisfy
`n > cutoff`, and `nlaps` is 0 at the division. -/
theorem default_cutoff_wraps_at_int_min :
    int_wrap (-2147483648 - 25) = 2147483623 ∧
    main_nlaps (some (-2147483648)) none ⟨0, 0⟩ = 0 ∧
    ¬ (main_nlaps (some (-2147483648)) none ⟨0, 0⟩ ≥ 1) := by
  have h : main_nlaps (some (-2147483648)) none ⟨0, 0⟩ = 0 := by
    unfold main_nlaps
    simp [run, fibonacci_cutoff, int_wrap]
  refine ⟨by decide, h, ?_⟩
  rw [h]
  decide

/-- C26, amended. Whenever `n > cutoff`, `fibonacci(n, cutoff)` leaves `nlaps` at
least one above its value before the call, hence at least 1 when it was reset to 0;
with the default cutoff `nfib - 25` this holds for every `nfib` from `INT_MIN + 25`
to `INT_MAX`, for which the `int` subtraction does not wrap, so the divisor `nlaps`
in `main` is then at least 1 whenever no cutoff argument is given. -/
theorem timed_run_counts_a_lap (n cutoff : Int) (g : Globals) (h : n > cutoff) :
    (fibonacci_cutoff n cutoff g).2.nlaps ≥ g.nlaps + 1 ∧
    (fibonacci_cutoff n cutoff { g with nlaps := 0 }).2.nlaps ≥ 1 ∧
    (∀ (nfib : Int) (g0 : Globals), -2147483648 + 25 ≤ nfib → nfib ≤ 2147483647 →
      int_wrap (nfib - 25) = nfib - 25 ∧
      (fibonacci_cutoff nfib (int_wrap (nfib - 25)) { g0 with nlaps := 0 }).2.nlaps ≥ 1) ∧
    (∀ (argv1 : Option Int) (g0 : Globals),
      (∀ v, argv1 = some v → -2147483648 + 25 ≤ v ∧ v ≤ 2147483647) →
      main_nlaps argv1 none g0 ≥ 1) := by
  have key : ∀ (n cutoff : Int) (g : Globals), n > cutoff →
      (fibonacci_cutoff n cutoff g).2.nlaps ≥ g.nlaps + 1 := by
    intro n cutoff g h
    rw [(nlaps_after_call n cutoff g)]
    have hmem : n ∈ (recursion_tree n).filter (fun m => decide (m > cutoff)) :=
      List.mem_filter.mpr ⟨recursion_tree_head n, by simpa using h⟩
    have := List.length_pos_of_mem hmem
    omega
  refine ⟨key n cutoff g h, ?_, ?_, ?_⟩
  · have := key n cutoff { g with nlaps := 0 } h
    simpa using this
  · intro nfib g0 hlo hhi
    have hw : int_wrap (nfib - 25) = nfib - 25 :=
      int_wrap_of_range (nfib - 25) (by omega) (by omega)
    refine ⟨hw, ?_⟩
    rw [hw]
    have := key nfib (nfib - 25) { g0 with nlaps := 0 } (by omega)
    simpa using this
  · intro argv1 g0 hrange
    unfold main_nlaps
    simp only [run, if_true]
    cases argv1 with
    | none =>
      have hw : int_wrap (43 - 25) = 43 - 25 := by decide
      rw [hw]
      have := key 43 (43 - 25) { (fibonacci_cutoff 43 43 g0).2 with nlaps := 0 } (by omega)
      simpa using this
    | some v =>
      have hv := hrange v rfl
      have hw : int_wrap (v - 25) = v - 25 :=
        int_wrap_of_range (v - 25) (by omega) (by omega)
      simp only [hw]
      have := key v (v - 25) { (fibonacci_cutoff v v g0).2 with nlaps := 0 } (by omega)
      simpa using this

/-- Witness of the amended C26 at `n = 3` and cutoff 2, where only the top-level
call is counted, and for `main` called with `nfib = 3`. -/
theorem timed_run_counts_a_lap_witness :
    (3 : Int) > 2 ∧ (fibonacci_cutoff 3 2 ⟨0, 0⟩).2.nlaps ≥ 0 + 1 ∧
    main_nlaps (some 3) none ⟨0, 0⟩ ≥ 1 :=
  ⟨by decide, (timed_run_counts_a_lap 3 2 ⟨0, 0⟩ (by decide)).1,
   (timed_run_counts_a_lap 3 2 ⟨0, 0⟩ (by decide)).2.2.2 (some 3) ⟨0, 0⟩
     (fun v hv => by cases hv; decide)⟩

theorem std_get_append (pre sfx : List String) (e : String) :
    std_get (pre.length : Int) (pre ++ e :: sfx) = some e := by
  have h : (pre ++ e :: sfx)[pre.length]? = some e := by
    rw [List.getElem?_append_right (le_refl _)]
    simp
  simp only [std_get, Int.natCast_nonneg, if_true, Int.toNat_ofNat]
  exact h

theorem _test_print_from :
    ∀ (sfx pre cout : List String), sfx ≠ [] →
      _test_print (pre.length : Int) (((pre ++ sfx).length : Int) - 1) (pre ++ sfx) cout
        = some (cout ++ line_of sfx) := by
  intro sfx
  induction sfx with
  | nil => intro pre cout h; exact absurd rfl h
  | cons e rest ih =>
    intro pre cout _
    cases rest with
    | nil =>
      rw [_test_print]
      have hN : (pre.length : Int) = (((pre ++ [e]).length : Int) - 1) := by
        simp
      rw [if_pos hN, std_get_append]
      rfl
    | cons f rest =>
      rw [_test_print]
      have hne : ¬ ((pre.length : Int) = (((pre ++ e :: f :: rest).length : Int) - 1)) := by
        simp only [List.length_append, List.length_cons]
        push_cast
        omega
      have hlt : (pre.length : Int) < (((pre ++ e :: f :: rest).length : Int) - 1) := by
        simp only [List.length_append, List.length_cons]
        push_cast
        omega
      rw [if_neg hne, if_pos hlt, std_get_append]
      have hstep := ih (pre ++ [e]) (cout ++ [e, ", "]) (by simp)
      have e1 : ((pre ++ [e]).length : Int) = (pre.length : Int) + 1 := by simp
      have e2 : pre ++ [e] ++ f :: rest = pre ++ e :: f :: rest := by simp
      rw [e1, e2] at hstep
      simp only [hstep, line_of]
      simp

theorem line_of_eq_intersperse : ∀ a : List String, a ≠ [] →
    line_of a = a.intersperse ", " ++ ["\n"] := by
  intro a
  induction a with
  | nil => intro h; exact absurd rfl h
  | cons e rest ih =>
    intro _
    cases rest with
    | nil => rfl
    | cons f rest =>
      have := ih (by simp)
      simp [line_of, this]

/-- C28. For a tuple with at least one element, `_test_print<0, N - 1>` writes its
elements in index order, each but the last followed by `", "` and the last by a
newline; `test_print(a, b)` writes this line for `a` and then this line for `b`. -/
theorem test_print_writes_lines (a b cout : List String) (ha : a ≠ []) (hb : b ≠ []) :
    _test_print 0 ((a.length : Int) - 1) a cout = some (cout ++ line_of a) ∧
    line_of a = a.intersperse ", " ++ ["\n"] ∧
    test_print a b cout = some (cout ++ line_of a ++ line_of b) := by
  have h0 : ∀ (x c : List String), x ≠ [] →
      _test_print 0 ((x.length : Int) - 1) x c = some (c ++ line_of x) := by
    intro x c hx
    have := _test_print_from x [] c hx
    simpa using this
  refine ⟨h0 a cout ha, line_of_eq_intersperse a ha, ?_⟩
  simp only [test_print, h0 a cout ha, h0 b (cout ++ line_of a) hb]

/-- Witness of C28 on the two tuples that `main` prints. -/
theorem test_print_writes_lines_witness :
    test_print ["1", "abc", "1"] ["def", "6"] []
      = some ["1", ", ", "abc", ", ", "1", "\n", "def", ", ", "6", "\n"] :=
  (test_print_writes_lines ["1", "abc", "1"] ["def", "6"] [] (by decide) (by decide)).2.2

end ex_cxx_overhead
